import Mathlib

/-!
Verification development for the FVS flux-partitioning core of fluxpart
(`src/fluxpart/partition.py`).

The numeric domain of the program is IEEE double precision.  We embed it
shallowly as exact real numbers extended with a `nan` element:

* arithmetic on `nan` propagates `nan`, and every order/equality comparison
  involving `nan` is false, as in IEEE-754;
* `math.sqrt` raises `ValueError` on negative arguments, which we model with
  an `Except` error; `math.sqrt(nan)` is `nan`;
* a division with zero divisor is modelled as `nan`.  (In the program's
  pipeline the divided quantities are numpy float64 scalars, for which a zero
  divisor yields a non-signalling nan/inf with a warning; the only
  zero-divisor divisions reached under the hypotheses of the theorems below
  are of the 0/0 form, whose IEEE value is nan.)
* rounding error is not modelled: arithmetic is exact.

Python's `assert` statement is modelled as an `Except` error
(`Err.assertionError`) so that "the computation halts" is an observable
outcome, and `raise ValueError` likewise (`Err.valueError`).
-/

noncomputable section

open Classical

/-- A Python/numpy float value: either nan or an exact real. -/
inductive F where
  | nan : F
  | val : ℝ → F
deriving DecidableEq

namespace F

def add : F → F → F
  | val a, val b => val (a + b)
  | _, _ => nan

def sub : F → F → F
  | val a, val b => val (a - b)
  | _, _ => nan

def mul : F → F → F
  | val a, val b => val (a * b)
  | _, _ => nan

/-- Division; a zero divisor yields `nan` (see the header comment). -/
def div : F → F → F
  | val a, val b => if b = 0 then nan else val (a / b)
  | _, _ => nan

def neg : F → F
  | val a => val (-a)
  | nan => nan

def fabs : F → F
  | val a => val |a|
  | nan => nan

instance : Add F := ⟨add⟩
instance : Sub F := ⟨sub⟩
instance : Mul F := ⟨mul⟩
instance : Div F := ⟨div⟩
instance : Neg F := ⟨neg⟩

/-- Python `x ** n` for a natural exponent (`nan ** 0 = 1.0`, as in Python). -/
def pow : F → Nat → F
  | _, 0 => val 1
  | x, n + 1 => x * pow x n

instance : HPow F Nat F := ⟨pow⟩

/-- IEEE `<`: false whenever an operand is nan. -/
def flt : F → F → Prop
  | val a, val b => a < b
  | _, _ => False

/-- IEEE `<=`: false whenever an operand is nan. -/
def fle : F → F → Prop
  | val a, val b => a ≤ b
  | _, _ => False

/-- IEEE `==`: false whenever an operand is nan. -/
def feq : F → F → Prop
  | val a, val b => a = b
  | _, _ => False

@[simp] theorem add_val (a b : ℝ) : (val a) + (val b) = val (a + b) := rfl
@[simp] theorem sub_val (a b : ℝ) : (val a) - (val b) = val (a - b) := rfl
@[simp] theorem mul_val (a b : ℝ) : (val a) * (val b) = val (a * b) := rfl
@[simp] theorem neg_val (a : ℝ) : -(val a) = val (-a) := rfl
@[simp] theorem add_nan (x : F) : x + nan = nan := by cases x <;> rfl
@[simp] theorem nan_add (x : F) : nan + x = nan := rfl
@[simp] theorem sub_nan (x : F) : x - nan = nan := by cases x <;> rfl
@[simp] theorem nan_sub (x : F) : nan - x = nan := rfl
@[simp] theorem mul_nan (x : F) : x * nan = nan := by cases x <;> rfl
@[simp] theorem nan_mul (x : F) : nan * x = nan := rfl
@[simp] theorem div_nan (x : F) : x / nan = nan := by cases x <;> rfl
@[simp] theorem nan_div (x : F) : nan / x = nan := rfl
@[simp] theorem neg_nan : -nan = nan := rfl
@[simp] theorem fabs_nan : fabs nan = nan := rfl
@[simp] theorem fabs_val (a : ℝ) : fabs (val a) = val |a| := rfl

theorem div_val (a b : ℝ) :
    (val a) / (val b) = if b = 0 then nan else val (a / b) := rfl

@[simp] theorem div_val_ne (a b : ℝ) (h : b ≠ 0) :
    (val a) / (val b) = val (a / b) := by
  simp [div_val, h]

@[simp] theorem div_val_zero (a : ℝ) : (val a) / (val 0) = nan := by
  simp [div_val]

@[simp] theorem pow_two (x : F) : x ^ 2 = x * (x * val 1) := rfl

@[simp] theorem flt_nan (x : F) : ¬ flt x nan := by cases x <;> simp [flt]
@[simp] theorem nan_flt (x : F) : ¬ flt nan x := by simp [flt]
@[simp] theorem fle_nan (x : F) : ¬ fle x nan := by cases x <;> simp [fle]
@[simp] theorem nan_fle (x : F) : ¬ fle nan x := by simp [fle]
@[simp] theorem flt_val (a b : ℝ) : flt (val a) (val b) ↔ a < b := Iff.rfl
@[simp] theorem fle_val (a b : ℝ) : fle (val a) (val b) ↔ a ≤ b := Iff.rfl
@[simp] theorem feq_val (a b : ℝ) : feq (val a) (val b) ↔ a = b := Iff.rfl
@[simp] theorem nan_feq (x : F) : ¬ feq nan x := by simp [feq]
@[simp] theorem feq_nan (x : F) : ¬ feq x nan := by cases x <;> simp [feq]

end F

/-- Runtime faults a Python function can raise. -/
inductive Err where
  | valueError : Err
  | assertionError : Err
deriving DecidableEq

/-- `math.sqrt`: raises `ValueError` on a negative argument, maps `nan` to
`nan`, and is the exact real square root otherwise. -/
def msqrt : F → Except Err F
  | F.nan => Except.ok F.nan
  | F.val a => if a < 0 then Except.error Err.valueError
               else Except.ok (F.val (Real.sqrt a))

@[simp] theorem msqrt_nan : msqrt F.nan = Except.ok F.nan := rfl

theorem msqrt_val (a : ℝ) (h : 0 ≤ a) :
    msqrt (F.val a) = Except.ok (F.val (Real.sqrt a)) := by
  simp [msqrt, not_lt.mpr h]

theorem msqrt_neg (a : ℝ) (h : a < 0) :
    msqrt (F.val a) = Except.error Err.valueError := by
  simp [msqrt, h]

/-!
Data model.  The container types live in `fluxpart/containers.py`, which is
not among the provided sources; the fields and defaults below are modelled
from the spec's data-model section (Covariance Summary, Root Solution,
Mass Fluxes, Partition Result; "Default/uninitialized value is NaN for all
six fields" of Mass Fluxes, invalid Root Solutions carry a NaN `sig_cr`).
-/

/-- Modelled from the spec: `fluxpart.containers.WQCData`, the Covariance
Summary — five scalars (cov(w,q), cov(w,c), var(q), var(c), corr(q,c)). -/
structure WQCData where
  wq : F
  wc : F
  var_q : F
  var_c : F
  corr_qc : F

/-- Modelled from the spec: `fluxpart.containers.RootSoln` — the Root
Solution record returned by `findroot`. -/
structure RootSoln where
  corr_cp_cr : F
  var_cp : F
  sig_cr : F
  co2soln_id : Option Nat
  isvalid : Bool
  mssg : String

/-- Modelled from the spec: `fluxpart.containers.MassFluxes` — the six mass
flux components. -/
structure MassFluxes where
  Fq : F
  Fqt : F
  Fqe : F
  Fc : F
  Fcp : F
  Fcr : F

/-- Modelled from the spec: `MassFluxes()` with no arguments — every field
defaults to nan. -/
def MassFluxes.default : MassFluxes :=
  ⟨F.nan, F.nan, F.nan, F.nan, F.nan, F.nan⟩

/-- Modelled from the spec: `fluxpart.containers.FVSPResult` — the Partition
Result record. -/
structure FVSPResult where
  wqc_data : WQCData
  rootsoln : RootSoln
  fluxes : MassFluxes
  valid_partition : Bool
  mssg : String
  wave_lvl : Option (Nat × Nat)

/-!
`fluxpart/partition.py`, translated function by function.
-/

/-- `partition._isvalid_root` (lines 327-337). -/
def isvalid_root (corr_cp_cr var_cp : F) : Bool × String :=
  let st : Bool × String := (true, "")
  let st : Bool × String :=
    if F.fle var_cp (F.val 0) then (false, st.2 ++ "var_cp <= 0; ") else st
  let st : Bool × String :=
    if ¬ (F.flt (F.val (-1)) corr_cp_cr ∧ F.flt corr_cp_cr (F.val 0)) then
      (false, st.2 ++ "corr_cp_cr <-1 OR >0; ")
    else st
  st

/-- `partition._isvalid_partition` (lines 340-357). -/
def isvalid_partition (fc : MassFluxes) : Bool × String :=
  let st : Bool × String := (true, "")
  let st : Bool × String :=
    if F.fle fc.Fqt (F.val 0) then (false, st.2 ++ "Fqt <= 0; ") else st
  let st : Bool × String :=
    if F.fle fc.Fqe (F.val 0) then (false, st.2 ++ "Fqe <= 0; ") else st
  let st : Bool × String :=
    if F.fle (F.val 0) fc.Fcp then (false, st.2 ++ "Fcp >= 0; ") else st
  let st : Bool × String :=
    if F.fle fc.Fcr (F.val 0) then (false, st.2 ++ "Fcr <= 0; ") else st
  st

/-- Discriminant and solution of the quadratic Eq. 13 shared by both
branches of `partition.flux_ratio` (lines 282-287). -/
def flux_ratio_tail (var_cp corr_cp_cr sign num : F) : Except Err F :=
  let disc := F.val 1 - F.val 1 / corr_cp_cr ^ 2 + num / var_cp / corr_cp_cr ^ 2
  if F.flt disc (F.val 0) then
    Except.ok F.nan
  else do
    let sq ← msqrt disc
    Except.ok (corr_cp_cr ^ 2 * (sign * sq - F.val 1))

/-- `partition.flux_ratio` (lines 242-287).  `farg` is the CO2 branch index
(0 or 1, as a float) for `ftype = "co2"` and the water use efficiency for
`ftype = "h2o"`; an unrecognized `ftype` raises `ValueError`. -/
def flux_ratio (var_cp corr_cp_cr : F) (wqc_data : WQCData) (ftype : String)
    (farg : F) : Except Err F :=
  if ftype = "co2" ∨ ftype = "CO2" then
    flux_ratio_tail var_cp corr_cp_cr
      (if F.feq farg (F.val 1) then F.val 1 else F.val (-1)) wqc_data.var_c
  else if ftype = "h2o" ∨ ftype = "H2O" then
    flux_ratio_tail var_cp corr_cp_cr (F.val 1) (farg ^ 2 * wqc_data.var_q)
  else
    Except.error Err.valueError

/-- `partition._residual_func` (lines 303-324): the residual of Eqs. 7a and
7b at the candidate `(corr_cp_cr, var_cp)` pair. -/
def residual_func (x : F × F) (wqc_data : WQCData) (wue : F)
    (co2soln_id : F) : Except Err (F × F) := do
  let corr_cp_cr := x.1
  let var_cp := x.2
  let wcr_ov_wcp ← flux_ratio var_cp corr_cp_cr wqc_data "co2" co2soln_id
  let wqe_ov_wqt ← flux_ratio var_cp corr_cp_cr wqc_data "h2o" wue
  let lhs1 := wue * wqc_data.wq / wqc_data.wc * (wcr_ov_wcp + F.val 1)
  let rhs1 := wqe_ov_wqt + F.val 1
  let resid1 := lhs1 - rhs1
  let sq ← msqrt (wqc_data.var_c * wqc_data.var_q)
  let lhs2 := wue * wqc_data.corr_qc * (sq / var_cp)
  let rhs2 := F.val 1 + wqe_ov_wqt + wcr_ov_wcp
      + wqe_ov_wqt * wcr_ov_wcp / corr_cp_cr ^ 2
  let resid2 := lhs2 - rhs2
  return (resid1, resid2)

/-- The i-th residual pair is accepted when both of its components are
within the absolute tolerance 1e-12 of zero (`findroot`, lines 207-219). -/
def residOK (r : F × F) : Prop :=
  F.flt (F.fabs r.1) (F.val 1e-12) ∧ F.flt (F.fabs r.2) (F.val 1e-12)

/-- The unit rescaling at the top of `findroot` (lines 166-175):
H2O kg→g, CO2 kg→mg. -/
def scaleWQC (d : WQCData) : WQCData :=
  ⟨d.wq * F.val 1e3, d.wc * F.val 1e6, d.var_q * F.val 1e6,
   d.var_c * F.val 1e12, d.corr_qc⟩

/-- The closed-form candidate `var_cp` of `findroot` (lines 177-186),
computed from the already rescaled covariance summary. -/
def candVarCp (s : WQCData) (wue : F) : Except Err F := do
  let sd_q ← msqrt s.var_q
  let sd_c ← msqrt s.var_c
  let numer := F.val (-2) * s.corr_qc * sd_c * sd_q * s.wq * s.wc
  let numer := numer + (s.var_c * s.wq ^ 2 + s.var_q * s.wc ^ 2)
  let numer := numer * (-(s.corr_qc ^ 2 - F.val 1) * s.var_c * s.var_q * wue ^ 2)
  let denom := -s.corr_qc * sd_c * sd_q * (s.wc + s.wq * wue)
  let denom := denom + (s.var_c * s.wq + s.var_q * s.wc * wue)
  let denom := denom ^ 2
  return numer / denom

/-- The closed-form candidate squared correlation `rho_sq` of `findroot`
(lines 188-193), computed from the already rescaled covariance summary. -/
def candRhoSq (s : WQCData) (wue : F) : Except Err F := do
  let sd_q ← msqrt s.var_q
  let sd_c ← msqrt s.var_c
  let numer := -(s.corr_qc ^ 2 - F.val 1) * s.var_c * s.var_q
      * (s.wc - s.wq * wue) ^ 2
  let denom := F.val (-2) * s.corr_qc * sd_c * sd_q * s.wc * s.wq
  let denom := denom + (s.var_c * s.wq ^ 2 + s.var_q * s.wc ^ 2)
  let denom := denom * (F.val (-2) * s.corr_qc * sd_c * sd_q * wue
      + s.var_c + s.var_q * wue ^ 2)
  return numer / denom

/-- Python truthiness of the `co2soln_id` variable (`None`, `0` or `1`):
`assert not co2soln_id` passes exactly when this is false. -/
def pyTruthy : Option Nat → Bool
  | none => false
  | some n => n ≠ 0

/-- `partition.findroot` (lines 150-239). -/
def findroot (wqc_data : WQCData) (wue : F) : Except Err RootSoln := do
  let s := scaleWQC wqc_data
  let wue := wue * F.val 1e3
  let var_cp ← candVarCp s wue
  let rho_sq ← candRhoSq s wue
  let sq ← msqrt rho_sq
  let corr_cp_cr := -sq
  let valid0 := isvalid_root corr_cp_cr var_cp
  if valid0.1 then do
    let r0 ← residual_func (corr_cp_cr, var_cp) s wue (F.val 0)
    let r1 ← residual_func (corr_cp_cr, var_cp) s wue (F.val 1)
    let st : Option Nat × Bool × String :=
      (none, false, "Trial root did not satisfy equations")
    let st : Option Nat × Bool × String :=
      if residOK r0 then (some 0, true, "") else st
    let st ← (if residOK r1 then
        (if pyTruthy st.1 then Except.error Err.assertionError
         else Except.ok ((some 1, true, "") : Option Nat × Bool × String))
      else Except.ok st)
    if st.2.1 then do
      let wcr_ov_wcp ← flux_ratio var_cp corr_cp_cr s "co2"
          (F.val (st.1.getD 0))
      let sdcp ← msqrt var_cp
      let sig_cr := wcr_ov_wcp * sdcp / corr_cp_cr
      return ⟨corr_cp_cr, var_cp * F.val 1e-12, sig_cr * F.val 1e-6,
        st.1, st.2.1, st.2.2⟩
    else
      return ⟨corr_cp_cr, var_cp * F.val 1e-12, F.nan * F.val 1e-6,
        st.1, st.2.1, st.2.2⟩
  else
    return ⟨corr_cp_cr, var_cp * F.val 1e-12, F.nan * F.val 1e-6,
      none, valid0.1, valid0.2⟩

/-- `partition._mass_fluxes` (lines 290-300). -/
def mass_fluxes (var_cp corr_cp_cr : F) (wqc_data : WQCData) (wue : F)
    (co2soln_id : F) : Except Err MassFluxes := do
  let wcr_ov_wcp ← flux_ratio var_cp corr_cp_cr wqc_data "co2" co2soln_id
  let wcp := wqc_data.wc / (wcr_ov_wcp + F.val 1)
  let wcr := wqc_data.wc - wcp
  let wqt := wcp / wue
  let wqe := wqc_data.wq - wqt
  return ⟨wqc_data.wq, wqt, wqe, wqc_data.wc, wcp, wcr⟩

/-- `partition._adjust_fluxes` (lines 360-393). -/
def adjust_fluxes (fc : MassFluxes) (wue Fq_tot Fc_tot : F) : MassFluxes :=
  let Fq_diff := Fq_tot - (fc.Fqe + fc.Fqt)
  let Fqe := fc.Fqe + Fq_diff * (fc.Fqe / (fc.Fqt + fc.Fqe))
  let Fqt := Fq_tot - Fqe
  let Fcp := wue * Fqt
  let Fcr := Fc_tot - Fcp
  ⟨Fq_tot, Fqt, Fqe, Fc_tot, Fcp, Fcr⟩

/-- A `None` CO2 branch identifier flowing into `flux_ratio`'s `farg == 1`
test behaves like any non-1 value; valid roots always carry `some` id. -/
def optIdF : Option Nat → F
  | none => F.nan
  | some n => F.val n

/-- `partition.fvspart_interval` (lines 104-147). -/
def fvspart_interval (wqc_data : WQCData) (wue : F)
    (wipe_if_invalid : Bool) : Except Err FVSPResult := do
  let rootsoln ← findroot wqc_data wue
  if rootsoln.isvalid = false then
    return ⟨wqc_data, rootsoln, MassFluxes.default, false, rootsoln.mssg, none⟩
  else do
    let mf ← mass_fluxes rootsoln.var_cp rootsoln.corr_cp_cr wqc_data wue
        (optIdF rootsoln.co2soln_id)
    let (isvalid, mssg) := isvalid_partition mf
    let mf := if isvalid = false ∧ wipe_if_invalid then MassFluxes.default else mf
    return ⟨wqc_data, rootsoln, mf, isvalid, mssg, none⟩

/-!
Series-level pipeline.
-/

/-- Sum of a list of reals. -/
def listSum (xs : List ℝ) : ℝ := xs.foldr (· + ·) 0

/-- Mean of a list of reals (`np.mean`; division by zero handled by the
caller's context — all uses below have nonempty lists). -/
def listMean (xs : List ℝ) : ℝ := listSum xs / xs.length

/-- Sample covariance of two equal-length series, `np.cov`'s default
(denominator N-1).  With the IEEE semantics of `F`, a single-sample series
yields 0/0 = nan, as numpy does. -/
def npcov (xs ys : List ℝ) : F :=
  F.val (listSum ((xs.zip ys).map
      (fun p => (p.1 - listMean xs) * (p.2 - listMean ys))))
    / F.val ((xs.length : ℝ) - 1)

/-- `partition.fvspart_series` (lines 73-101).  Note the `wipe_if_invalid`
flag is accepted but not forwarded to `fvspart_interval`, which therefore
runs with its default `wipe_if_invalid=False`. -/
def fvspart_series (w q c : List ℝ) (wue : F) (wipe_if_invalid : Bool) :
    Except Err FVSPResult := do
  let cov01 := npcov w q
  let cov02 := npcov w c
  let cov11 := npcov q q
  let cov22 := npcov c c
  let cov12 := npcov q c
  let sq ← msqrt (cov11 * cov22)
  let wqc_data : WQCData := ⟨cov01, cov02, cov11, cov22, cov12 / sq⟩
  fvspart_interval wqc_data wue false

/-- Modelled from the spec: `fluxpart.util.progressive_lowcut_series` is not
among the provided sources.  Per spec section 4.1, for a dyadic-length series
it produces k+1 = log2(N)+1 progressively low-cut versions, where the
level-l version is the original minus all approximation (coarse-scale)
components through level l of a Haar-style multiresolution decomposition;
equivalently, the original minus its block means over blocks of size
2^(k-l).  Level 0 removes only the mean, level k removes everything. -/
def blockAvg (xs : List ℝ) (b i : Nat) : ℝ :=
  listMean ((xs.drop (b * (i / b))).take b)

def lowcutLevel (xs : List ℝ) (l : Nat) : List ℝ :=
  (List.range xs.length).map
    (fun i => xs.getD i 0 - blockAvg xs (2 ^ (Nat.log2 xs.length - l)) i)

def progressive_lowcut_series (xs : List ℝ) : List (List ℝ) :=
  (List.range (Nat.log2 xs.length + 1)).map (lowcutLevel xs)

/-- `partition._progressive_lowcut` (lines 396-429): truncate the three
series to the largest power-of-two length and zip the three progressively
low-cut sequences. -/
def progressive_lowcut (wind vapor co2 : List ℝ) :
    List (List ℝ × List ℝ × List ℝ) :=
  let maxlen := 2 ^ Nat.log2 co2.length
  let lw := progressive_lowcut_series (wind.take maxlen)
  let lq := progressive_lowcut_series (vapor.take maxlen)
  let lc := progressive_lowcut_series (co2.take maxlen)
  (lw.zip (lq.zip lc)).map (fun t => (t.1, t.2.1, t.2.2))

/-- One iteration of the loop body of `fvspart_progressive` (lines 51-60):
run the series solve on the low-cut triple and, when the root is valid and
adjustment is requested, adjust the fluxes to the full-series totals and
re-run the sign-validity check. -/
def progAttempt (wue wq_tot wc_tot : F) (adjust : Bool)
    (t : List ℝ × List ℝ × List ℝ) : Except Err FVSPResult := do
  let fvsp ← fvspart_series t.1 t.2.1 t.2.2 wue false
  if fvsp.rootsoln.isvalid ∧ adjust then
    let fl := adjust_fluxes fvsp.fluxes wue wq_tot wc_tot
    let (v, m) := isvalid_partition fl
    return { fvsp with fluxes := fl, valid_partition := v, mssg := m }
  else
    return fvsp

/-- The `for`/`break` loop of `fvspart_progressive` (lines 51-62): iterate
over the low-cut triples, stopping at the first level whose partition is
valid; return the last attempted result and its level index `cnt`.  An
empty iterator leaves the loop variables unbound, a Python `NameError`,
which cannot occur for nonempty series. -/
def progLoop (wue wq_tot wc_tot : F) (adjust : Bool) :
    List (List ℝ × List ℝ × List ℝ) → Nat → Except Err (FVSPResult × Nat)
  | [], _ => Except.error Err.valueError
  | [t], cnt => do
      let fvsp ← progAttempt wue wq_tot wc_tot adjust t
      return (fvsp, cnt)
  | t :: rest, cnt => do
      let fvsp ← progAttempt wue wq_tot wc_tot adjust t
      if fvsp.rootsoln.isvalid ∧ fvsp.valid_partition then
        return (fvsp, cnt)
      else
        progLoop wue wq_tot wc_tot adjust rest (cnt + 1)

/-- `partition.fvspart_progressive` (lines 11-70). -/
def fvspart_progressive (w q c : List ℝ) (wue : F) (adjust_fluxes' : Bool) :
    Except Err FVSPResult := do
  let max_decomp_lvl := Nat.log2 w.length
  let wq_tot := npcov w q
  let wc_tot := npcov w c
  let pr ← progLoop wue wq_tot wc_tot adjust_fluxes'
      (progressive_lowcut w q c) 0
  let fvsp := pr.1
  let wave_lvl := (max_decomp_lvl - pr.2, max_decomp_lvl)
  let fvsp := { fvsp with wave_lvl := some wave_lvl }
  let fvsp :=
    if fvsp.rootsoln.isvalid = false then
      { fvsp with valid_partition := false, mssg := fvsp.rootsoln.mssg }
    else fvsp
  let fvsp :=
    if fvsp.valid_partition = false then
      { fvsp with fluxes := MassFluxes.default }
    else fvsp
  return fvsp


/-!
Helper lemmas: monadic reductions, totality facts, and a case-by-case
characterization of `findroot`.
-/

@[simp] theorem ok_bind {α β : Type} (a : α) (f : α → Except Err β) :
    (Except.ok a >>= f) = f a := rfl

@[simp] theorem error_bind {α β : Type} (e : Err) (f : α → Except Err β) :
    ((Except.error e : Except Err α) >>= f) = Except.error e := rfl

@[simp] theorem pure_eq_ok {α : Type} (a : α) :
    (pure a : Except Err α) = Except.ok a := rfl

namespace F

/-- The argument is safe for `math.sqrt` (it is nan or a nonnegative real). -/
def sqrtArgOK (x : F) : Prop := ∀ a : ℝ, x = F.val a → 0 ≤ a

theorem sqrtArgOK_nan : F.nan.sqrtArgOK := by intro a h; cases h

theorem sqrtArgOK_val {a : ℝ} (h : 0 ≤ a) : (F.val a).sqrtArgOK := by
  intro b hb; cases hb; exact h

theorem sqrtArgOK_mul {x y : F} (hx : x.sqrtArgOK) (hy : y.sqrtArgOK) :
    (x * y).sqrtArgOK := by
  cases x with
  | nan => intro a h; cases h
  | val a =>
    cases y with
    | nan => intro b h; cases h
    | val b =>
      intro c hc
      cases hc
      exact mul_nonneg (hx a rfl) (hy b rfl)

theorem sqrtArgOK_of_not_fle_zero {x : F} (h : ¬ F.fle x (F.val 0)) :
    x.sqrtArgOK := by
  cases x with
  | nan => exact sqrtArgOK_nan
  | val a => exact sqrtArgOK_val (le_of_not_le (by simpa using h))

theorem sqrtArgOK_of_not_flt_zero {x : F} (h : ¬ F.flt x (F.val 0)) :
    x.sqrtArgOK := by
  cases x with
  | nan => exact sqrtArgOK_nan
  | val a => exact sqrtArgOK_val (not_lt.mp (by simpa using h))

end F

theorem msqrt_ok {x : F} (h : x.sqrtArgOK) : ∃ y, msqrt x = Except.ok y := by
  cases x with
  | nan => exact ⟨F.nan, rfl⟩
  | val a => exact ⟨F.val (Real.sqrt a), msqrt_val a (h a rfl)⟩

theorem flux_ratio_tail_ok (var_cp corr_cp_cr sign num : F) :
    ∃ y, flux_ratio_tail var_cp corr_cp_cr sign num = Except.ok y := by
  unfold flux_ratio_tail
  by_cases hlt : F.flt (F.val 1 - F.val 1 / corr_cp_cr ^ 2
      + num / var_cp / corr_cp_cr ^ 2) (F.val 0)
  · exact ⟨F.nan, by rw [if_pos hlt]⟩
  · obtain ⟨y, hy⟩ := msqrt_ok (F.sqrtArgOK_of_not_flt_zero hlt)
    exact ⟨_, by rw [if_neg hlt, hy]; rfl⟩

theorem flux_ratio_co2_eq (var_cp corr_cp_cr : F) (s : WQCData) (farg : F) :
    flux_ratio var_cp corr_cp_cr s "co2" farg =
      flux_ratio_tail var_cp corr_cp_cr
        (if F.feq farg (F.val 1) then F.val 1 else F.val (-1)) s.var_c := by
  unfold flux_ratio
  rw [if_pos (Or.inl rfl)]

theorem flux_ratio_h2o_eq (var_cp corr_cp_cr : F) (s : WQCData) (farg : F) :
    flux_ratio var_cp corr_cp_cr s "h2o" farg =
      flux_ratio_tail var_cp corr_cp_cr (F.val 1) (farg ^ 2 * s.var_q) := by
  unfold flux_ratio
  rw [if_neg (by decide), if_pos (Or.inl rfl)]

theorem flux_ratio_co2_ok (var_cp corr_cp_cr : F) (s : WQCData) (farg : F) :
    ∃ y, flux_ratio var_cp corr_cp_cr s "co2" farg = Except.ok y := by
  rw [flux_ratio_co2_eq]
  exact flux_ratio_tail_ok _ _ _ _

theorem flux_ratio_h2o_ok (var_cp corr_cp_cr : F) (s : WQCData) (farg : F) :
    ∃ y, flux_ratio var_cp corr_cp_cr s "h2o" farg = Except.ok y := by
  rw [flux_ratio_h2o_eq]
  exact flux_ratio_tail_ok _ _ _ _

theorem residual_func_ok (x : F × F) (s : WQCData) (wue co2soln_id : F)
    (hprod : (s.var_c * s.var_q).sqrtArgOK) :
    ∃ p, residual_func x s wue co2soln_id = Except.ok p := by
  obtain ⟨y0, hy0⟩ := flux_ratio_co2_ok x.2 x.1 s co2soln_id
  obtain ⟨y1, hy1⟩ := flux_ratio_h2o_ok x.2 x.1 s wue
  obtain ⟨sq, hsq⟩ := msqrt_ok hprod
  simp only [residual_func]
  rw [hy0]
  simp only [ok_bind]
  rw [hy1]
  simp only [ok_bind]
  rw [hsq]
  exact ⟨_, rfl⟩

theorem candVarCp_ok (s : WQCData) (wue : F) (hq : s.var_q.sqrtArgOK)
    (hc : s.var_c.sqrtArgOK) : ∃ v, candVarCp s wue = Except.ok v := by
  obtain ⟨a, ha⟩ := msqrt_ok hq
  obtain ⟨b, hb⟩ := msqrt_ok hc
  unfold candVarCp
  rw [ha]
  simp only [ok_bind]
  rw [hb]
  exact ⟨_, rfl⟩

theorem candRhoSq_ok (s : WQCData) (wue : F) (hq : s.var_q.sqrtArgOK)
    (hc : s.var_c.sqrtArgOK) : ∃ v, candRhoSq s wue = Except.ok v := by
  obtain ⟨a, ha⟩ := msqrt_ok hq
  obtain ⟨b, hb⟩ := msqrt_ok hc
  unfold candRhoSq
  rw [ha]
  simp only [ok_bind]
  rw [hb]
  exact ⟨_, rfl⟩

/-- `_isvalid_root` accepts exactly when the `var_cp <= 0` test fails and
the correlation passes the strict (-1, 0) membership test (a nan value
fails the membership test and passes the `<= 0` test vacuously). -/
theorem isvalid_root_true_iff (c v : F) :
    (isvalid_root c v).1 = true ↔
      ¬ F.fle v (F.val 0) ∧ (F.flt (F.val (-1)) c ∧ F.flt c (F.val 0)) := by
  unfold isvalid_root
  by_cases h1 : F.fle v (F.val 0) <;>
    by_cases h2 : F.flt (F.val (-1)) c ∧ F.flt c (F.val 0) <;>
      simp [h1, h2]

theorem findroot_invalid_raw (d : WQCData) (wue var_cp rho_sq sq : F)
    (hv : candVarCp (scaleWQC d) (wue * F.val 1e3) = Except.ok var_cp)
    (hrho : candRhoSq (scaleWQC d) (wue * F.val 1e3) = Except.ok rho_sq)
    (hs : msqrt rho_sq = Except.ok sq)
    (hraw : (isvalid_root (-sq) var_cp).1 = false) :
    findroot d wue = Except.ok ⟨-sq, var_cp * F.val 1e-12, F.nan,
      none, false, (isvalid_root (-sq) var_cp).2⟩ := by
  simp only [findroot]
  rw [hv]
  simp only [ok_bind]
  rw [hrho]
  simp only [ok_bind]
  rw [hs]
  simp only [ok_bind, hraw]
  simp

theorem findroot_valid_none (d : WQCData) (wue var_cp rho_sq sq : F)
    (r0 r1 : F × F)
    (hv : candVarCp (scaleWQC d) (wue * F.val 1e3) = Except.ok var_cp)
    (hrho : candRhoSq (scaleWQC d) (wue * F.val 1e3) = Except.ok rho_sq)
    (hs : msqrt rho_sq = Except.ok sq)
    (hraw : (isvalid_root (-sq) var_cp).1 = true)
    (h0 : residual_func (-sq, var_cp) (scaleWQC d) (wue * F.val 1e3) (F.val 0)
        = Except.ok r0)
    (h1 : residual_func (-sq, var_cp) (scaleWQC d) (wue * F.val 1e3) (F.val 1)
        = Except.ok r1)
    (hb0 : ¬ residOK r0) (hb1 : ¬ residOK r1) :
    findroot d wue = Except.ok ⟨-sq, var_cp * F.val 1e-12, F.nan,
      none, false, "Trial root did not satisfy equations"⟩ := by
  simp only [findroot]
  rw [hv]
  simp only [ok_bind]
  rw [hrho]
  simp only [ok_bind]
  rw [hs]
  simp only [ok_bind, hraw]
  simp only [if_true]
  rw [h0]
  simp only [ok_bind]
  rw [h1]
  simp only [ok_bind, if_neg hb0, if_neg hb1]
  simp

theorem findroot_valid_b1 (d : WQCData) (wue var_cp rho_sq sq : F)
    (r0 r1 : F × F) (rat sdcp : F)
    (hv : candVarCp (scaleWQC d) (wue * F.val 1e3) = Except.ok var_cp)
    (hrho : candRhoSq (scaleWQC d) (wue * F.val 1e3) = Except.ok rho_sq)
    (hs : msqrt rho_sq = Except.ok sq)
    (hraw : (isvalid_root (-sq) var_cp).1 = true)
    (h0 : residual_func (-sq, var_cp) (scaleWQC d) (wue * F.val 1e3) (F.val 0)
        = Except.ok r0)
    (h1 : residual_func (-sq, var_cp) (scaleWQC d) (wue * F.val 1e3) (F.val 1)
        = Except.ok r1)
    (hb1 : residOK r1)
    (hrat : flux_ratio var_cp (-sq) (scaleWQC d) "co2" (F.val 1)
        = Except.ok rat)
    (hsd : msqrt var_cp = Except.ok sdcp) :
    findroot d wue = Except.ok ⟨-sq, var_cp * F.val 1e-12,
      rat * sdcp / -sq * F.val 1e-6, some 1, true, ""⟩ := by
  simp only [findroot]
  rw [hv]
  simp only [ok_bind]
  rw [hrho]
  simp only [ok_bind]
  rw [hs]
  simp only [ok_bind, hraw]
  simp only [if_true]
  rw [h0]
  simp only [ok_bind]
  rw [h1]
  simp only [ok_bind, if_pos hb1]
  by_cases hb0 : residOK r0
  · simp only [if_pos hb0, pyTruthy]
    simp [hrat, hsd]
  · simp only [if_neg hb0, pyTruthy]
    simp [hrat, hsd]

theorem findroot_valid_b0 (d : WQCData) (wue var_cp rho_sq sq : F)
    (r0 r1 : F × F) (rat sdcp : F)
    (hv : candVarCp (scaleWQC d) (wue * F.val 1e3) = Except.ok var_cp)
    (hrho : candRhoSq (scaleWQC d) (wue * F.val 1e3) = Except.ok rho_sq)
    (hs : msqrt rho_sq = Except.ok sq)
    (hraw : (isvalid_root (-sq) var_cp).1 = true)
    (h0 : residual_func (-sq, var_cp) (scaleWQC d) (wue * F.val 1e3) (F.val 0)
        = Except.ok r0)
    (h1 : residual_func (-sq, var_cp) (scaleWQC d) (wue * F.val 1e3) (F.val 1)
        = Except.ok r1)
    (hb0 : residOK r0) (hb1 : ¬ residOK r1)
    (hrat : flux_ratio var_cp (-sq) (scaleWQC d) "co2" (F.val 0)
        = Except.ok rat)
    (hsd : msqrt var_cp = Except.ok sdcp) :
    findroot d wue = Except.ok ⟨-sq, var_cp * F.val 1e-12,
      rat * sdcp / -sq * F.val 1e-6, some 0, true, ""⟩ := by
  simp only [findroot]
  rw [hv]
  simp only [ok_bind]
  rw [hrho]
  simp only [ok_bind]
  rw [hs]
  simp only [ok_bind, hraw]
  simp only [if_true]
  rw [h0]
  simp only [ok_bind]
  rw [h1]
  simp only [ok_bind, if_pos hb0, if_neg hb1, ok_bind]
  simp [hrat, hsd]

/-!
Claim theorems.
-/

/-- C10: `fvspart_series` accepts `wipe_if_invalid` but never forwards it to
`fvspart_interval`, so the single-window series solve returns the same
result whether wiping is requested or not. -/
theorem C10_fvspart_series_ignores_wipe (w q c : List ℝ) (wue : F)
    (b1 b2 : Bool) :
    fvspart_series w q c wue b1 = fvspart_series w q c wue b2 := rfl

/-- C6 (amended): for real (non-nan) inputs whose transpiration and
evaporation components do not sum to zero, the adjusted fluxes satisfy
`Fqt + Fqe = Fq_tot` and `Fcp + Fcr = Fc_tot` exactly, with the CO2 side
recomputed asymmetrically as `Fcp = wue * Fqt` and `Fcr = Fc_tot - Fcp`. -/
theorem C6_adjust_fluxes_conservation (fc : MassFluxes) (wue Fq_tot Fc_tot : F)
    (a b u qt ct : ℝ)
    (hqt : fc.Fqt = F.val a) (hqe : fc.Fqe = F.val b) (hab : a + b ≠ 0)
    (hw : wue = F.val u) (hq : Fq_tot = F.val qt) (hc : Fc_tot = F.val ct) :
    (adjust_fluxes fc wue Fq_tot Fc_tot).Fqt
        + (adjust_fluxes fc wue Fq_tot Fc_tot).Fqe = F.val qt ∧
    (adjust_fluxes fc wue Fq_tot Fc_tot).Fcp
        + (adjust_fluxes fc wue Fq_tot Fc_tot).Fcr = F.val ct ∧
    (adjust_fluxes fc wue Fq_tot Fc_tot).Fcp
        = wue * (adjust_fluxes fc wue Fq_tot Fc_tot).Fqt ∧
    (adjust_fluxes fc wue Fq_tot Fc_tot).Fcr
        = Fc_tot - (adjust_fluxes fc wue Fq_tot Fc_tot).Fcp := by
  simp only [adjust_fluxes, hqt, hqe, hw, hq, hc, F.add_val, F.sub_val,
    F.mul_val, F.div_val_ne _ _ hab]
  refine ⟨?_, ?_, trivial, trivial⟩
  · congr 1
    ring
  · congr 1
    ring

/-- Witness for C6 at `Fqt = 2`, `Fqe = 2`, `wue = -1`, `Fq_tot = 3`,
`Fc_tot = 5`. -/
theorem C6_adjust_fluxes_conservation_witness :
    (adjust_fluxes ⟨F.val 4, F.val 2, F.val 2, F.val 0, F.val 0, F.val 0⟩
        (F.val (-1)) (F.val 3) (F.val 5)).Fqt
      + (adjust_fluxes ⟨F.val 4, F.val 2, F.val 2, F.val 0, F.val 0, F.val 0⟩
        (F.val (-1)) (F.val 3) (F.val 5)).Fqe = F.val 3 ∧
    (adjust_fluxes ⟨F.val 4, F.val 2, F.val 2, F.val 0, F.val 0, F.val 0⟩
        (F.val (-1)) (F.val 3) (F.val 5)).Fcp
      + (adjust_fluxes ⟨F.val 4, F.val 2, F.val 2, F.val 0, F.val 0, F.val 0⟩
        (F.val (-1)) (F.val 3) (F.val 5)).Fcr = F.val 5 :=
  ⟨(C6_adjust_fluxes_conservation _ _ _ _ 2 2 (-1) 3 5 rfl rfl (by norm_num)
      rfl rfl rfl).1,
   (C6_adjust_fluxes_conservation _ _ _ _ 2 2 (-1) 3 5 rfl rfl (by norm_num)
      rfl rfl rfl).2.1⟩

/-- Input record refuting C6 as universally stated: transpiration and
evaporation sum to zero, so the water redistribution divides by zero. -/
def c6fc : MassFluxes :=
  ⟨F.val 0, F.val 1, F.val (-1), F.val 0, F.val 0, F.val 0⟩

/-- C6 counterexample: at `Fqt = 1`, `Fqe = -1` (sum zero) the adjusted
fluxes do not conserve the water total — the sum is nan, not `Fq_tot`. -/
theorem C6_counterexample :
    (adjust_fluxes c6fc (F.val 1) (F.val 5) (F.val 5)).Fqt
      + (adjust_fluxes c6fc (F.val 1) (F.val 5) (F.val 5)).Fqe = F.nan ∧
    F.nan ≠ F.val 5 := by
  constructor
  · simp [adjust_fluxes, c6fc]
  · intro h
    cases h

/-- C7 (amended): for a Mass Fluxes record whose four checked components are
real (non-nan), `_isvalid_partition` accepts exactly when `Fqt > 0`,
`Fqe > 0`, `Fcp < 0` and `Fcr > 0`, and its message is the concatenation of
one token per violated constraint (all violations accumulated, in source
order). -/
theorem C7_isvalid_partition_signs (fc : MassFluxes) (a b p r : ℝ)
    (hqt : fc.Fqt = F.val a) (hqe : fc.Fqe = F.val b)
    (hcp : fc.Fcp = F.val p) (hcr : fc.Fcr = F.val r) :
    ((isvalid_partition fc).1 = true ↔ (0 < a ∧ 0 < b ∧ p < 0 ∧ 0 < r)) ∧
    (isvalid_partition fc).2 =
      (if a ≤ 0 then "Fqt <= 0; " else "")
        ++ ((if b ≤ 0 then "Fqe <= 0; " else "")
        ++ ((if 0 ≤ p then "Fcp >= 0; " else "")
        ++ (if r ≤ 0 then "Fcr <= 0; " else ""))) := by
  unfold isvalid_partition
  rw [hqt, hqe, hcp, hcr]
  by_cases h1 : a ≤ 0 <;> by_cases h2 : b ≤ 0 <;>
    by_cases h3 : (0 : ℝ) ≤ p <;> by_cases h4 : r ≤ 0 <;>
      simp [h1, h2, h3, h4, not_le.mp, lt_of_not_le]

/-- Witness for C7 at the valid record `(Fqt, Fqe, Fcp, Fcr) =
(1, 1, -1, 1)`. -/
theorem C7_isvalid_partition_signs_witness :
    ((isvalid_partition ⟨F.val 2, F.val 1, F.val 1, F.val 0, F.val (-1),
        F.val 1⟩).1 = true ↔ ((0:ℝ) < 1 ∧ (0:ℝ) < 1 ∧ (-1:ℝ) < 0 ∧ (0:ℝ) < 1)) :=
  (C7_isvalid_partition_signs _ 1 1 (-1) 1 rfl rfl rfl rfl).1

/-- C7 counterexample: the default (all-nan) Mass Fluxes record is marked
valid by `_isvalid_partition`, yet `Fqt > 0` does not hold for it, refuting
the unconditioned "valid iff signs" claim. -/
theorem C7_counterexample :
    (isvalid_partition MassFluxes.default).1 = true ∧
    ¬ F.flt (F.val 0) MassFluxes.default.Fqt ∧
    (isvalid_partition MassFluxes.default).2 = "" := by
  refine ⟨?_, ?_, ?_⟩
  · simp [isvalid_partition, MassFluxes.default]
  · simp [MassFluxes.default]
  · simp [isvalid_partition, MassFluxes.default]

/-- Covariance summary for the C4 failing input (`var_c` small enough that
the CO2 discriminant at the valid root `(corr_cp_cr, var_cp) = (-1/2, 1)`
is negative). -/
def c4wqc : WQCData := ⟨F.val 1, F.val 1, F.val 1, F.val (1/10), F.val 0⟩

/-- C4: at a root accepted by `_isvalid_root`, a negative discriminant makes
`flux_ratio` return nan, the nan propagates into every partitioned flux
component, and `_isvalid_partition` then marks the partition VALID with an
empty message — the nan sentinel is not caught by the sign-validity check,
contradicting the claim (and the spec's sign invariant). -/
theorem C4_nan_fluxes_marked_valid :
    (isvalid_root (F.val (-(1/2))) (F.val 1)).1 = true ∧
    mass_fluxes (F.val 1) (F.val (-(1/2))) c4wqc (F.val (-1)) (F.val 0) =
      Except.ok ⟨F.val 1, F.nan, F.nan, F.val 1, F.nan, F.nan⟩ ∧
    isvalid_partition ⟨F.val 1, F.nan, F.nan, F.val 1, F.nan, F.nan⟩ =
      (true, "") := by
  refine ⟨?_, ?_, ?_⟩
  · rw [isvalid_root_true_iff]
    norm_num
  · have hsign : (if F.feq (F.val 0) (F.val 1) then F.val 1 else F.val (-1))
        = F.val (-1) := by
      rw [if_neg]
      simp [F.feq]
    have hdisc : F.val 1 - F.val 1 / (F.val (-(1/2)) : F) ^ 2
        + c4wqc.var_c / F.val 1 / (F.val (-(1/2)) : F) ^ 2
        = F.val (-(13/5)) := by
      simp only [c4wqc, F.pow_two, F.mul_val,
        F.div_val_ne _ _ (by norm_num : ((-(1/2) : ℝ) * (-(1/2) * 1)) ≠ 0),
        F.div_val_ne _ _ (by norm_num : ((1 : ℝ)) ≠ 0), F.sub_val, F.add_val]
      congr 1
      norm_num
    have hfr : flux_ratio (F.val 1) (F.val (-(1/2))) c4wqc "co2" (F.val 0)
        = Except.ok F.nan := by
      rw [flux_ratio_co2_eq, hsign]
      unfold flux_ratio_tail
      rw [hdisc, if_pos (by norm_num : F.flt (F.val (-(13/5))) (F.val 0))]
    simp only [mass_fluxes, hfr, ok_bind]
    simp [c4wqc]
  · simp [isvalid_partition]

/-- The real-valued discriminant of the CO2 ratio quadratic (line 282 of
`partition.py`), for real, nonzero `var_cp` and `corr_cp_cr`. -/
def co2disc (var_cp corr_cp_cr var_c : ℝ) : ℝ :=
  1 - 1 / corr_cp_cr ^ 2 + var_c / var_cp / corr_cp_cr ^ 2

/-- C8 (amended): for real nonzero `var_cp` and `corr_cp_cr` and a real
`var_c`, the CO2 `flux_ratio` never raises and returns nan exactly when the
discriminant is negative; at a zero discriminant with the "-" branch
(`farg = 0`) it returns the finite value `corr_cp_cr ^ 2 * (-1)`. -/
theorem C8_flux_ratio_nan_iff (v c vc : ℝ) (s : WQCData) (farg : F)
    (hv : v ≠ 0) (hc : c ≠ 0) (hs : s.var_c = F.val vc) :
    ∃ y, flux_ratio (F.val v) (F.val c) s "co2" farg = Except.ok y ∧
      (y = F.nan ↔ co2disc v c vc < 0) ∧
      (co2disc v c vc = 0 → farg = F.val 0 → y = F.val (c ^ 2 * (-1))) := by
  have hcc : c * (c * 1) ≠ 0 := by
    intro h
    exact hc (by nlinarith [h])
  have hdisc : F.val 1 - F.val 1 / (F.val c : F) ^ 2
      + s.var_c / F.val v / (F.val c : F) ^ 2
      = F.val (co2disc v c vc) := by
    simp only [hs, F.pow_two, F.mul_val, F.div_val_ne _ _ hcc,
      F.div_val_ne _ _ hv, F.sub_val, F.add_val]
    congr 1
    unfold co2disc
    field_simp
    ring
  rw [flux_ratio_co2_eq]
  unfold flux_ratio_tail
  rw [hdisc]
  by_cases hlt : co2disc v c vc < 0
  · refine ⟨F.nan, ?_, ?_, ?_⟩
    · rw [if_pos (by simpa using hlt)]
    · simp [hlt]
    · intro h0
      exact absurd h0 (by linarith)
  · rw [if_neg (by simpa using hlt)]
    rw [msqrt_val _ (not_lt.mp hlt)]
    by_cases hf : F.feq farg (F.val 1)
    · rw [if_pos hf]
      refine ⟨_, rfl, ?_, ?_⟩
      · simp only [F.pow_two, F.mul_val, F.sub_val]
        constructor
        · intro h
          exact F.noConfusion h
        · intro h
          exact absurd h hlt
      · intro h0 hfarg
        rw [hfarg] at hf
        simp [F.feq] at hf
    · rw [if_neg hf]
      refine ⟨_, rfl, ?_, ?_⟩
      · simp only [F.pow_two, F.mul_val, F.sub_val]
        constructor
        · intro h
          exact F.noConfusion h
        · intro h
          exact absurd h hlt
      · intro h0 hfarg
        rw [h0, Real.sqrt_zero]
        simp only [F.pow_two, F.mul_val, F.neg_val, F.sub_val]
        congr 1
        ring

/-- Covariance summary (with `var_c = 1`) for the C8 counterexample. -/
def c8s : WQCData := ⟨F.val 0, F.val 0, F.val 0, F.val 1, F.val 0⟩

/-- C8 counterexample: at `corr_cp_cr = 0` the discriminant expression is
nan (not a negative real), yet `flux_ratio` still returns nan — so "returns
nan exactly when the discriminant is negative" fails as universally
stated. -/
theorem C8_counterexample :
    flux_ratio (F.val 1) (F.val 0) c8s "co2" (F.val 0) = Except.ok F.nan ∧
    F.val 1 - F.val 1 / (F.val 0 : F) ^ 2
      + c8s.var_c / F.val 1 / (F.val 0 : F) ^ 2 = F.nan ∧
    ¬ F.flt F.nan (F.val 0) := by
  have hz : (F.val 0 : F) ^ 2 = F.val 0 := by
    simp only [F.pow_two, F.mul_val]
    norm_num
  have hdisc : F.val 1 - F.val 1 / (F.val 0 : F) ^ 2
      + c8s.var_c / F.val 1 / (F.val 0 : F) ^ 2 = F.nan := by
    rw [hz]
    simp [c8s]
  refine ⟨?_, hdisc, by simp⟩
  rw [flux_ratio_co2_eq]
  unfold flux_ratio_tail
  rw [hdisc]
  rw [if_neg (by simp)]
  simp

/-- Covariance summary (with `var_c = 3/4`) for the C8 witness: at
`(var_cp, corr_cp_cr) = (1, -1/2)` the discriminant is exactly zero. -/
def c8ws : WQCData := ⟨F.val 0, F.val 0, F.val 0, F.val (3/4), F.val 0⟩

/-- Witness for C8 at `var_cp = 1`, `corr_cp_cr = -1/2`, `var_c = 3/4`,
`farg = 0`: the discriminant is exactly zero and the branch returns the
finite value `(-1/2) ^ 2 * (-1)`. -/
theorem C8_flux_ratio_nan_iff_witness :
    ∃ y, flux_ratio (F.val 1) (F.val (-(1/2))) c8ws "co2" (F.val 0)
        = Except.ok y ∧
      (y = F.nan ↔ co2disc 1 (-(1/2)) (3/4) < 0) ∧
      (co2disc 1 (-(1/2)) (3/4) = 0 → (F.val 0 : F) = F.val 0
        → y = F.val ((-(1/2)) ^ 2 * (-1))) :=
  C8_flux_ratio_nan_iff 1 (-(1/2)) (3/4) c8ws (F.val 0)
    (by norm_num) (by norm_num) rfl

/-- C9 (amended): an invalid Root Solution carries a nan `sig_cr` (the
derived standard deviation) and no branch identifier; the `corr_cp_cr` and
`var_cp` payloads keep their computed candidate values. -/
theorem C9_invalid_root_payload (d : WQCData) (wue : F) (r : RootSoln)
    (hf : findroot d wue = Except.ok r) (hinv : r.isvalid = false) :
    r.sig_cr = F.nan ∧ r.co2soln_id = none := by
  simp only [findroot] at hf
  cases hv : candVarCp (scaleWQC d) (wue * F.val 1e3) with
  | error e =>
    rw [hv] at hf
    simp only [error_bind] at hf
    exact absurd hf (by simp)
  | ok var_cp =>
  rw [hv] at hf
  simp only [ok_bind] at hf
  cases hrho : candRhoSq (scaleWQC d) (wue * F.val 1e3) with
  | error e =>
    rw [hrho] at hf
    simp only [error_bind] at hf
    exact absurd hf (by simp)
  | ok rho_sq =>
  rw [hrho] at hf
  simp only [ok_bind] at hf
  cases hs : msqrt rho_sq with
  | error e =>
    rw [hs] at hf
    simp only [error_bind] at hf
    exact absurd hf (by simp)
  | ok sq =>
  rw [hs] at hf
  simp only [ok_bind] at hf
  cases hraw : (isvalid_root (-sq) var_cp).1 with
  | false =>
    rw [hraw] at hf
    simp only [Bool.false_eq_true, if_false, pure_eq_ok, Except.ok.injEq] at hf
    subst hf
    simp
  | true =>
  rw [hraw] at hf
  simp only [if_true] at hf
  cases h0 : residual_func (-sq, var_cp) (scaleWQC d) (wue * F.val 1e3)
      (F.val 0) with
  | error e =>
    rw [h0] at hf
    simp only [error_bind] at hf
    exact absurd hf (by simp)
  | ok r0 =>
  rw [h0] at hf
  simp only [ok_bind] at hf
  cases h1 : residual_func (-sq, var_cp) (scaleWQC d) (wue * F.val 1e3)
      (F.val 1) with
  | error e =>
    rw [h1] at hf
    simp only [error_bind] at hf
    exact absurd hf (by simp)
  | ok r1 =>
  rw [h1] at hf
  simp only [ok_bind] at hf
  by_cases hb1 : residOK r1
  · rw [if_pos hb1] at hf
    by_cases hb0 : residOK r0
    · rw [if_pos hb0] at hf
      simp only [pyTruthy, ne_eq, decide_not, decide_True, Bool.not_true,
        Bool.false_eq_true, if_false, ok_bind, if_true, Option.getD_some,
        Nat.cast_one] at hf
      cases hfr : flux_ratio var_cp (-sq) (scaleWQC d) "co2" (F.val 1) with
      | error e =>
        rw [hfr] at hf
        simp only [error_bind] at hf
        exact absurd hf (by simp)
      | ok rat =>
      rw [hfr] at hf
      simp only [ok_bind] at hf
      cases hsd : msqrt var_cp with
      | error e =>
        rw [hsd] at hf
        simp only [error_bind] at hf
        exact absurd hf (by simp)
      | ok sdcp =>
      rw [hsd] at hf
      simp only [ok_bind, pure_eq_ok, Except.ok.injEq] at hf
      subst hf
      simp at hinv
    · rw [if_neg hb0] at hf
      simp only [pyTruthy, Bool.false_eq_true, if_false, ok_bind, if_true,
        Option.getD_some, Nat.cast_one] at hf
      cases hfr : flux_ratio var_cp (-sq) (scaleWQC d) "co2" (F.val 1) with
      | error e =>
        rw [hfr] at hf
        simp only [error_bind] at hf
        exact absurd hf (by simp)
      | ok rat =>
      rw [hfr] at hf
      simp only [ok_bind] at hf
      cases hsd : msqrt var_cp with
      | error e =>
        rw [hsd] at hf
        simp only [error_bind] at hf
        exact absurd hf (by simp)
      | ok sdcp =>
      rw [hsd] at hf
      simp only [ok_bind, pure_eq_ok, Except.ok.injEq] at hf
      subst hf
      simp at hinv
  · rw [if_neg hb1] at hf
    by_cases hb0 : residOK r0
    · rw [if_pos hb0] at hf
      simp only [ok_bind, if_true, Option.getD_some, Nat.cast_zero] at hf
      cases hfr : flux_ratio var_cp (-sq) (scaleWQC d) "co2" (F.val 0) with
      | error e =>
        rw [hfr] at hf
        simp only [error_bind] at hf
        exact absurd hf (by simp)
      | ok rat =>
      rw [hfr] at hf
      simp only [ok_bind] at hf
      cases hsd : msqrt var_cp with
      | error e =>
        rw [hsd] at hf
        simp only [error_bind] at hf
        exact absurd hf (by simp)
      | ok sdcp =>
      rw [hsd] at hf
      simp only [ok_bind, pure_eq_ok, Except.ok.injEq] at hf
      subst hf
      simp at hinv
    · rw [if_neg hb0] at hf
      simp only [ok_bind, Bool.false_eq_true, if_false, pure_eq_ok,
        Except.ok.injEq] at hf
      subst hf
      simp

/-- Covariance summary for the C9 counterexample: `wc = -wq * wue` makes the
candidate correlation exactly 0, so the raw validity check rejects the root
while `var_cp` remains a finite positive number. -/
def c9wqc : WQCData :=
  ⟨F.val 1e-3, F.val (-1e-6), F.val 1e-6, F.val 1e-12, F.val 0⟩

def c9wue : F := F.val (-1e-3)

theorem c9_scale :
    scaleWQC c9wqc = ⟨F.val 1, F.val (-1), F.val 1, F.val 1, F.val 0⟩ := by
  simp only [scaleWQC, c9wqc, F.mul_val, WQCData.mk.injEq]
  norm_num

theorem c9_wue : c9wue * F.val 1e3 = F.val (-1) := by
  simp only [c9wue, F.mul_val]
  norm_num

theorem c9_varcp :
    candVarCp ⟨F.val 1, F.val (-1), F.val 1, F.val 1, F.val 0⟩ (F.val (-1))
      = Except.ok (F.val (1/2)) := by
  unfold candVarCp
  simp only [msqrt_val 1 (by norm_num : (0:ℝ) ≤ 1), Real.sqrt_one, ok_bind,
    F.mul_val, F.add_val, F.neg_val, F.sub_val, F.pow_two]
  rw [F.div_val_ne _ _ (by norm_num)]
  congr 1
  norm_num

theorem c9_rhosq :
    candRhoSq ⟨F.val 1, F.val (-1), F.val 1, F.val 1, F.val 0⟩ (F.val (-1))
      = Except.ok (F.val 0) := by
  unfold candRhoSq
  simp only [msqrt_val 1 (by norm_num : (0:ℝ) ≤ 1), Real.sqrt_one, ok_bind,
    F.mul_val, F.add_val, F.neg_val, F.sub_val, F.pow_two]
  rw [F.div_val_ne _ _ (by norm_num)]
  congr 1
  norm_num

/-- Full evaluation of `findroot` at the C9 input. -/
theorem c9_findroot :
    findroot c9wqc c9wue = Except.ok
      ⟨-F.val 0, F.val (1/2) * F.val 1e-12, F.nan, none, false,
       "corr_cp_cr <-1 OR >0; "⟩ := by
  have hs0 : msqrt (F.val 0) = Except.ok (F.val 0) := by
    rw [msqrt_val 0 le_rfl, Real.sqrt_zero]
  have hc1 : ¬ F.fle (F.val (1/2)) (F.val 0) := by
    norm_num [F.fle]
  have hc2 : ¬ (F.flt (F.val (-1)) (-F.val 0) ∧ F.flt (-F.val 0) (F.val 0)) := by
    norm_num [F.neg_val, F.flt]
  have hraw : (isvalid_root (-F.val 0) (F.val (1/2))).1 = false := by
    simp only [isvalid_root]
    rw [if_neg hc1, if_pos hc2]
  have hmssg : (isvalid_root (-F.val 0) (F.val (1/2))).2
      = "corr_cp_cr <-1 OR >0; " := by
    simp only [isvalid_root]
    rw [if_neg hc1, if_pos hc2]
    rfl
  have h := findroot_invalid_raw c9wqc c9wue (F.val (1/2)) (F.val 0)
      (F.val 0) (by rw [c9_scale, c9_wue]; exact c9_varcp)
      (by rw [c9_scale, c9_wue]; exact c9_rhosq) hs0 hraw
  rw [h, hmssg]

/-- C9 counterexample: a Root Solution that is invalid (the candidate
correlation 0 is not strictly inside (-1, 0)) yet whose correlation and
variance payload fields are finite numbers, not nan — refuting "invalid
solutions carry NaN payload fields" for those fields. -/
theorem C9_counterexample :
    findroot c9wqc c9wue = Except.ok
      ⟨-F.val 0, F.val (1/2) * F.val 1e-12, F.nan, none, false,
       "corr_cp_cr <-1 OR >0; "⟩ ∧
    (-F.val 0 : F) ≠ F.nan ∧ (F.val (1/2) * F.val 1e-12 : F) ≠ F.nan :=
  ⟨c9_findroot, by simp [F.neg_val], by simp [F.mul_val]⟩

/-- Witness for the amended C9 theorem at the concrete invalid root of
`c9_findroot`. -/
theorem C9_invalid_root_payload_witness :
    (⟨-F.val 0, F.val (1/2) * F.val 1e-12, F.nan, none, false,
      "corr_cp_cr <-1 OR >0; "⟩ : RootSoln).sig_cr = F.nan ∧
    (⟨-F.val 0, F.val (1/2) * F.val 1e-12, F.nan, none, false,
      "corr_cp_cr <-1 OR >0; "⟩ : RootSoln).co2soln_id = none :=
  C9_invalid_root_payload c9wqc c9wue _ c9_findroot rfl

/-- Evaluation helper: `Real.sqrt a = r` when `a = r ^ 2` and `0 ≤ r`. -/
theorem sqrt_eval (a r : ℝ) (h : 0 ≤ r) (ha : a = r ^ 2) : Real.sqrt a = r := by
  rw [ha, Real.sqrt_sq h]

/-- Evaluation helper for `flux_ratio_tail` at real arguments with a
nonnegative discriminant. -/
theorem flux_ratio_tail_eval (v c sg n D R : ℝ) (hv : v ≠ 0)
    (hc : c * (c * 1) ≠ 0)
    (hD : 1 - 1 / (c * (c * 1)) + n / v / (c * (c * 1)) = D) (hD0 : 0 ≤ D)
    (hR : Real.sqrt D = R) :
    flux_ratio_tail (F.val v) (F.val c) (F.val sg) (F.val n)
      = Except.ok (F.val (c * (c * 1) * (sg * R - 1))) := by
  unfold flux_ratio_tail
  have hdisc : F.val 1 - F.val 1 / (F.val c : F) ^ 2
      + F.val n / F.val v / (F.val c : F) ^ 2 = F.val D := by
    simp only [F.pow_two, F.mul_val, F.div_val_ne _ _ hc, F.div_val_ne _ _ hv,
      F.sub_val, F.add_val]
    rw [← hD]
  rw [hdisc, if_neg (by simpa using not_lt.mpr hD0), msqrt_val _ hD0, hR]
  simp only [ok_bind, pure_eq_ok, F.pow_two, F.mul_val, F.sub_val]

/-!
C5: the Covariance Summary below makes `rho_sq` negative, so `findroot`
raises `ValueError` from `math.sqrt` rather than returning data.
-/

def c5wqc : WQCData :=
  ⟨F.val 1e-3, F.val (-1e-6), F.val 1e-6, F.val 1e-12, F.val 2⟩

def c5wue : F := F.val (-2e-3)

theorem c5_scale :
    scaleWQC c5wqc = ⟨F.val 1, F.val (-1), F.val 1, F.val 1, F.val 2⟩ := by
  simp only [scaleWQC, c5wqc, F.mul_val, WQCData.mk.injEq]
  norm_num

theorem c5_wue : c5wue * F.val 1e3 = F.val (-2) := by
  simp only [c5wue, F.mul_val]
  norm_num

theorem c5_varcp :
    candVarCp (scaleWQC c5wqc) (c5wue * F.val 1e3)
      = Except.ok (F.val (-(8/9))) := by
  rw [c5_scale, c5_wue]
  unfold candVarCp
  norm_num [msqrt_val 1 (by norm_num : (0:ℝ) ≤ 1), Real.sqrt_one, ok_bind,
    F.div_val, F.mul_val, F.add_val, F.neg_val, F.sub_val, F.pow_two]

theorem c5_rhosq :
    candRhoSq (scaleWQC c5wqc) (c5wue * F.val 1e3)
      = Except.ok (F.val (-(1/26))) := by
  rw [c5_scale, c5_wue]
  unfold candRhoSq
  norm_num [msqrt_val 1 (by norm_num : (0:ℝ) ≤ 1), Real.sqrt_one, ok_bind,
    F.div_val, F.mul_val, F.add_val, F.neg_val, F.sub_val, F.pow_two]

/-- C5 counterexample: at a directly supplied Covariance Summary with
`corr_qc = 2` the candidate `rho_sq` is the negative real -1/26, and
`findroot` raises `ValueError` from `math.sqrt` instead of returning a Root
Solution as data. -/
theorem C5_counterexample :
    findroot c5wqc c5wue = Except.error Err.valueError := by
  simp only [findroot]
  rw [c5_varcp]
  simp only [ok_bind]
  rw [c5_rhosq]
  simp only [ok_bind]
  rw [msqrt_neg _ (by norm_num)]
  simp only [error_bind]

/-- C5 (amended): provided the scaled variances are not negative reals and
the candidate `rho_sq` is not a negative real (so no `math.sqrt` domain
fault occurs), `findroot` returns a Root Solution as data; and whenever the
raw root passes the necessary checks but neither CO2 branch satisfies the
1e-12 residual tolerance, the returned solution is invalid with diagnostic
"Trial root did not satisfy equations". -/
theorem C5_findroot_returns_data (d : WQCData) (wue : F)
    (hq : (scaleWQC d).var_q.sqrtArgOK) (hc : (scaleWQC d).var_c.sqrtArgOK)
    (hrho : ∀ x, candRhoSq (scaleWQC d) (wue * F.val 1e3) = Except.ok x →
      x.sqrtArgOK) :
    ∃ r, findroot d wue = Except.ok r ∧
      ∀ var_cp rho_sq sq r0 r1,
        candVarCp (scaleWQC d) (wue * F.val 1e3) = Except.ok var_cp →
        candRhoSq (scaleWQC d) (wue * F.val 1e3) = Except.ok rho_sq →
        msqrt rho_sq = Except.ok sq →
        residual_func (-sq, var_cp) (scaleWQC d) (wue * F.val 1e3) (F.val 0)
          = Except.ok r0 →
        residual_func (-sq, var_cp) (scaleWQC d) (wue * F.val 1e3) (F.val 1)
          = Except.ok r1 →
        (isvalid_root (-sq) var_cp).1 = true →
        ¬ residOK r0 → ¬ residOK r1 →
        r.isvalid = false ∧ r.mssg = "Trial root did not satisfy equations" := by
  obtain ⟨var_cp, hv⟩ := candVarCp_ok _ _ hq hc
  obtain ⟨rho_sq, hrho'⟩ := candRhoSq_ok _ _ hq hc
  obtain ⟨sq, hs⟩ := msqrt_ok (hrho _ hrho')
  by_cases hraw : (isvalid_root (-sq) var_cp).1 = true
  · obtain ⟨r0, h0⟩ := residual_func_ok (-sq, var_cp) _ (wue * F.val 1e3)
      (F.val 0) (F.sqrtArgOK_mul hc hq)
    obtain ⟨r1, h1⟩ := residual_func_ok (-sq, var_cp) _ (wue * F.val 1e3)
      (F.val 1) (F.sqrtArgOK_mul hc hq)
    have hvp : var_cp.sqrtArgOK :=
      F.sqrtArgOK_of_not_fle_zero ((isvalid_root_true_iff _ _).1 hraw).1
    obtain ⟨sdcp, hsd⟩ := msqrt_ok hvp
    by_cases hb1 : residOK r1
    · obtain ⟨rat, hrat⟩ := flux_ratio_co2_ok var_cp (-sq) (scaleWQC d)
        (F.val 1)
      refine ⟨_, findroot_valid_b1 d wue var_cp rho_sq sq r0 r1 rat sdcp
        hv hrho' hs hraw h0 h1 hb1 hrat hsd, ?_⟩
      intro v' ρ' sq' r0' r1' hv' hρ' hs' h0' h1' _ _ hnr1
      rw [hv] at hv'
      injection hv' with hv'
      subst hv'
      rw [hrho'] at hρ'
      injection hρ' with hρ'
      subst hρ'
      rw [hs] at hs'
      injection hs' with hs'
      subst hs'
      rw [h1] at h1'
      injection h1' with h1'
      subst h1'
      exact absurd hb1 hnr1
    · by_cases hb0 : residOK r0
      · obtain ⟨rat, hrat⟩ := flux_ratio_co2_ok var_cp (-sq) (scaleWQC d)
          (F.val 0)
        refine ⟨_, findroot_valid_b0 d wue var_cp rho_sq sq r0 r1 rat sdcp
          hv hrho' hs hraw h0 h1 hb0 hb1 hrat hsd, ?_⟩
        intro v' ρ' sq' r0' r1' hv' hρ' hs' h0' h1' _ hnr0 _
        rw [hv] at hv'
        injection hv' with hv'
        subst hv'
        rw [hrho'] at hρ'
        injection hρ' with hρ'
        subst hρ'
        rw [hs] at hs'
        injection hs' with hs'
        subst hs'
        rw [h0] at h0'
        injection h0' with h0'
        subst h0'
        exact absurd hb0 hnr0
      · refine ⟨_, findroot_valid_none d wue var_cp rho_sq sq r0 r1
          hv hrho' hs hraw h0 h1 hb0 hb1, ?_⟩
        intro v' ρ' sq' r0' r1' _ _ _ _ _ _ _ _
        exact ⟨rfl, rfl⟩
  · refine ⟨_, findroot_invalid_raw d wue var_cp rho_sq sq hv hrho' hs
      (Bool.not_eq_true _ ▸ hraw : (isvalid_root (-sq) var_cp).1 = false), ?_⟩
    intro v' ρ' sq' r0' r1' hv' hρ' hs' h0' h1' hraw' _ _
    rw [hv] at hv'
    injection hv' with hv'
    subst hv'
    rw [hrho'] at hρ'
    injection hρ' with hρ'
    subst hρ'
    rw [hs] at hs'
    injection hs' with hs'
    subst hs'
    exact absurd hraw' hraw

/-!
C5 witness input: a Covariance Summary on which the residual check runs and
neither CO2 branch satisfies the tolerance, so `findroot` returns the
invalid Root Solution with the "Trial root did not satisfy equations"
diagnostic as data.
-/

def c5wwqc : WQCData :=
  ⟨F.val (-6e-3), F.val (-6e-6), F.val 1e-6, F.val 1e-12, F.val (-(2/3))⟩

def c5wwue : F := F.val (-3e-3)

/-- The rescaled C5 witness summary. -/
def s5 : WQCData :=
  ⟨F.val (-6), F.val (-6), F.val 1, F.val 1, F.val (-(2/3))⟩

theorem c5w_scale : scaleWQC c5wwqc = s5 := by
  simp only [scaleWQC, c5wwqc, s5, F.mul_val, WQCData.mk.injEq]
  norm_num

theorem c5w_wue : c5wwue * F.val 1e3 = F.val (-3) := by
  simp only [c5wwue, F.mul_val]
  norm_num

theorem c5w_varcp :
    candVarCp (scaleWQC c5wwqc) (c5wwue * F.val 1e3)
      = Except.ok (F.val (3/2)) := by
  rw [c5w_scale, c5w_wue]
  unfold candVarCp s5
  norm_num [msqrt_val 1 (by norm_num : (0:ℝ) ≤ 1), Real.sqrt_one, ok_bind,
    F.div_val, F.mul_val, F.add_val, F.neg_val, F.sub_val, F.pow_two]

theorem c5w_rhosq :
    candRhoSq (scaleWQC c5wwqc) (c5wwue * F.val 1e3)
      = Except.ok (F.val (4/9)) := by
  rw [c5w_scale, c5w_wue]
  unfold candRhoSq s5
  norm_num [msqrt_val 1 (by norm_num : (0:ℝ) ≤ 1), Real.sqrt_one, ok_bind,
    F.div_val, F.mul_val, F.add_val, F.neg_val, F.sub_val, F.pow_two]

theorem c5w_sq : msqrt (F.val (4/9)) = Except.ok (F.val (2/3)) := by
  rw [msqrt_val _ (by norm_num),
    sqrt_eval (4/9) (2/3) (by norm_num) (by norm_num)]

theorem c5w_raw : (isvalid_root (-F.val (2/3)) (F.val (3/2))).1 = true := by
  rw [isvalid_root_true_iff]
  norm_num [F.fle, F.flt, F.neg_val]

theorem c5w_frc0 :
    flux_ratio (F.val (3/2)) (-F.val (2/3)) s5 "co2" (F.val 0)
      = Except.ok (F.val (-(2/3))) := by
  rw [flux_ratio_co2_eq, if_neg (by norm_num [F.feq])]
  have h := flux_ratio_tail_eval (3/2) (-(2/3)) (-1) 1 (1/4) (1/2)
    (by norm_num) (by norm_num) (by norm_num) (by norm_num)
    (sqrt_eval _ _ (by norm_num) (by norm_num))
  rw [show (-F.val (2/3) : F) = F.val (-(2/3)) from rfl,
    show s5.var_c = F.val 1 from rfl, h]
  congr 1
  congr 1
  norm_num

theorem c5w_frc1 :
    flux_ratio (F.val (3/2)) (-F.val (2/3)) s5 "co2" (F.val 1)
      = Except.ok (F.val (-(2/9))) := by
  rw [flux_ratio_co2_eq, if_pos (by norm_num [F.feq])]
  have h := flux_ratio_tail_eval (3/2) (-(2/3)) 1 1 (1/4) (1/2)
    (by norm_num) (by norm_num) (by norm_num) (by norm_num)
    (sqrt_eval _ _ (by norm_num) (by norm_num))
  rw [show (-F.val (2/3) : F) = F.val (-(2/3)) from rfl,
    show s5.var_c = F.val 1 from rfl, h]
  congr 1
  congr 1
  norm_num

theorem c5w_frh :
    flux_ratio (F.val (3/2)) (-F.val (2/3)) s5 "h2o" (F.val (-3))
      = Except.ok (F.val (10/9)) := by
  rw [flux_ratio_h2o_eq]
  have harg : ((F.val (-3) : F) ^ 2) * s5.var_q = F.val 9 := by
    simp only [F.pow_two, F.mul_val, show s5.var_q = F.val 1 from rfl]
    norm_num
  rw [harg]
  have h := flux_ratio_tail_eval (3/2) (-(2/3)) 1 9 (49/4) (7/2)
    (by norm_num) (by norm_num) (by norm_num) (by norm_num)
    (sqrt_eval _ _ (by norm_num) (by norm_num))
  rw [show (-F.val (2/3) : F) = F.val (-(2/3)) from rfl, h]
  congr 1
  congr 1
  norm_num

theorem c5w_prod : msqrt (s5.var_c * s5.var_q) = Except.ok (F.val 1) := by
  rw [show s5.var_c * s5.var_q = F.val 1 from by
    simp only [s5, F.mul_val]
    norm_num]
  rw [msqrt_val _ (by norm_num), Real.sqrt_one]

theorem c5w_r0 :
    residual_func (-F.val (2/3), F.val (3/2)) s5 (F.val (-3)) (F.val 0)
      = Except.ok (F.val (-(28/9)), F.val (14/9)) := by
  simp only [residual_func]
  rw [c5w_frc0]
  simp only [ok_bind]
  rw [c5w_frh]
  simp only [ok_bind]
  rw [c5w_prod]
  simp only [ok_bind, pure_eq_ok]
  norm_num [s5, F.div_val, F.mul_val, F.add_val, F.neg_val, F.sub_val,
    F.pow_two, Prod.ext_iff]

theorem c5w_r1 :
    residual_func (-F.val (2/3), F.val (3/2)) s5 (F.val (-3)) (F.val 1)
      = Except.ok (F.val (-(40/9)), F.val 0) := by
  simp only [residual_func]
  rw [c5w_frc1]
  simp only [ok_bind]
  rw [c5w_frh]
  simp only [ok_bind]
  rw [c5w_prod]
  simp only [ok_bind, pure_eq_ok]
  norm_num [s5, F.div_val, F.mul_val, F.add_val, F.neg_val, F.sub_val,
    F.pow_two, Prod.ext_iff]

theorem c5w_nr0 : ¬ residOK (F.val (-(28/9)), F.val (14/9)) := by
  unfold residOK
  norm_num [F.fabs, F.flt, abs]

theorem c5w_nr1 : ¬ residOK (F.val (-(40/9)), F.val 0) := by
  unfold residOK
  norm_num [F.fabs, F.flt, abs]

/-- Full evaluation of `findroot` at the C5 witness input: the residual
check runs, neither branch validates, and the invalid solution is returned
as data with the non-convergence diagnostic. -/
theorem c5w_findroot :
    findroot c5wwqc c5wwue = Except.ok
      ⟨-F.val (2/3), F.val (3/2) * F.val 1e-12, F.nan, none, false,
       "Trial root did not satisfy equations"⟩ :=
  findroot_valid_none c5wwqc c5wwue (F.val (3/2)) (F.val (4/9)) (F.val (2/3))
    (F.val (-(28/9)), F.val (14/9)) (F.val (-(40/9)), F.val 0)
    c5w_varcp c5w_rhosq c5w_sq c5w_raw
    (by rw [c5w_scale, c5w_wue]; exact c5w_r0)
    (by rw [c5w_scale, c5w_wue]; exact c5w_r1)
    c5w_nr0 c5w_nr1

/-- Witness for C5 at the `c5wwqc` input: the hypotheses hold, `findroot`
returns data, and at this very input the inner antecedent is realized —
the raw checks pass, neither branch validates, and the returned solution is
the invalid one with the non-convergence diagnostic. -/
theorem C5_findroot_returns_data_witness :
    (∃ r, findroot c5wwqc c5wwue = Except.ok r ∧
      ∀ var_cp rho_sq sq r0 r1,
        candVarCp (scaleWQC c5wwqc) (c5wwue * F.val 1e3) = Except.ok var_cp →
        candRhoSq (scaleWQC c5wwqc) (c5wwue * F.val 1e3) = Except.ok rho_sq →
        msqrt rho_sq = Except.ok sq →
        residual_func (-sq, var_cp) (scaleWQC c5wwqc) (c5wwue * F.val 1e3)
          (F.val 0) = Except.ok r0 →
        residual_func (-sq, var_cp) (scaleWQC c5wwqc) (c5wwue * F.val 1e3)
          (F.val 1) = Except.ok r1 →
        (isvalid_root (-sq) var_cp).1 = true →
        ¬ residOK r0 → ¬ residOK r1 →
        r.isvalid = false ∧ r.mssg = "Trial root did not satisfy equations") ∧
    findroot c5wwqc c5wwue = Except.ok
      ⟨-F.val (2/3), F.val (3/2) * F.val 1e-12, F.nan, none, false,
       "Trial root did not satisfy equations"⟩ :=
  ⟨C5_findroot_returns_data c5wwqc c5wwue
    (by rw [c5w_scale]; exact F.sqrtArgOK_val (by norm_num))
    (by rw [c5w_scale]; exact F.sqrtArgOK_val (by norm_num))
    (by
      intro x hx
      rw [c5w_rhosq] at hx
      injection hx with hx
      subst hx
      exact F.sqrtArgOK_val (by norm_num)),
   c5w_findroot⟩

/-!
C3/C1 input: a Covariance Summary constructed so that the closed-form root
is exact and the CO2 discriminant is exactly zero, making the two branch
candidates coincide — both satisfy the residual tolerance simultaneously.
-/

def mWqc : WQCData :=
  ⟨F.val (-35e-3), F.val (16/25 * 1e-6), F.val 1369e-6,
   F.val (16/25 * 1e-12), F.val (-(104/185))⟩

def mWue : F := F.val (-(1/26 * 1e-3))

/-- The rescaled C3/C1 summary. -/
def sM : WQCData :=
  ⟨F.val (-35), F.val (16/25), F.val 1369, F.val (16/25),
   F.val (-(104/185))⟩

theorem m_scale : scaleWQC mWqc = sM := by
  simp only [scaleWQC, mWqc, sM, F.mul_val, WQCData.mk.injEq]
  norm_num

theorem m_wue : mWue * F.val 1e3 = F.val (-(1/26)) := by
  simp only [mWue, F.mul_val]
  norm_num

theorem m_sqrt_vq : msqrt (F.val 1369) = Except.ok (F.val 37) := by
  rw [msqrt_val _ (by norm_num),
    sqrt_eval 1369 37 (by norm_num) (by norm_num)]

theorem m_sqrt_vc : msqrt (F.val (16/25)) = Except.ok (F.val (4/5)) := by
  rw [msqrt_val _ (by norm_num),
    sqrt_eval (16/25) (4/5) (by norm_num) (by norm_num)]

theorem m_varcp :
    candVarCp (scaleWQC mWqc) (mWue * F.val 1e3) = Except.ok (F.val 1) := by
  rw [m_scale, m_wue]
  unfold candVarCp sM
  norm_num [m_sqrt_vq, m_sqrt_vc, ok_bind, F.div_val, F.mul_val, F.add_val,
    F.neg_val, F.sub_val, F.pow_two]

theorem m_rhosq :
    candRhoSq (scaleWQC mWqc) (mWue * F.val 1e3)
      = Except.ok (F.val (9/25)) := by
  rw [m_scale, m_wue]
  unfold candRhoSq sM
  norm_num [m_sqrt_vq, m_sqrt_vc, ok_bind, F.div_val, F.mul_val, F.add_val,
    F.neg_val, F.sub_val, F.pow_two]

theorem m_sq : msqrt (F.val (9/25)) = Except.ok (F.val (3/5)) := by
  rw [msqrt_val _ (by norm_num),
    sqrt_eval (9/25) (3/5) (by norm_num) (by norm_num)]

theorem m_raw : (isvalid_root (-F.val (3/5)) (F.val 1)).1 = true := by
  rw [isvalid_root_true_iff]
  norm_num [F.fle, F.flt, F.neg_val]

theorem m_frc0 :
    flux_ratio (F.val 1) (-F.val (3/5)) sM "co2" (F.val 0)
      = Except.ok (F.val (-(9/25))) := by
  rw [flux_ratio_co2_eq, if_neg (by norm_num [F.feq])]
  have h := flux_ratio_tail_eval 1 (-(3/5)) (-1) (16/25) 0 0
    (by norm_num) (by norm_num) (by norm_num) (by norm_num) Real.sqrt_zero
  rw [show (-F.val (3/5) : F) = F.val (-(3/5)) from rfl,
    show sM.var_c = F.val (16/25) from rfl, h]
  congr 1
  congr 1
  norm_num

theorem m_frc1 :
    flux_ratio (F.val 1) (-F.val (3/5)) sM "co2" (F.val 1)
      = Except.ok (F.val (-(9/25))) := by
  rw [flux_ratio_co2_eq, if_pos (by norm_num [F.feq])]
  have h := flux_ratio_tail_eval 1 (-(3/5)) 1 (16/25) 0 0
    (by norm_num) (by norm_num) (by norm_num) (by norm_num) Real.sqrt_zero
  rw [show (-F.val (3/5) : F) = F.val (-(3/5)) from rfl,
    show sM.var_c = F.val (16/25) from rfl, h]
  congr 1
  congr 1
  norm_num

theorem m_frh :
    flux_ratio (F.val 1) (-F.val (3/5)) sM "h2o" (F.val (-(1/26)))
      = Except.ok (F.val (9/26)) := by
  rw [flux_ratio_h2o_eq]
  have harg : ((F.val (-(1/26)) : F) ^ 2) * sM.var_q = F.val (1369/676) := by
    simp only [F.pow_two, F.mul_val, show sM.var_q = F.val 1369 from rfl]
    norm_num
  rw [harg]
  have h := flux_ratio_tail_eval 1 (-(3/5)) 1 (1369/676) (2601/676) (51/26)
    (by norm_num) (by norm_num) (by norm_num) (by norm_num)
    (sqrt_eval _ _ (by norm_num) (by norm_num))
  rw [show (-F.val (3/5) : F) = F.val (-(3/5)) from rfl, h]
  congr 1
  congr 1
  norm_num

theorem m_prod : msqrt (sM.var_c * sM.var_q) = Except.ok (F.val (148/5)) := by
  rw [show sM.var_c * sM.var_q = F.val (21904/25) from by
    simp only [sM, F.mul_val]
    norm_num]
  rw [msqrt_val _ (by norm_num),
    sqrt_eval (21904/25) (148/5) (by norm_num) (by norm_num)]

theorem m_r0 :
    residual_func (-F.val (3/5), F.val 1) sM (F.val (-(1/26))) (F.val 0)
      = Except.ok (F.val 0, F.val 0) := by
  simp only [residual_func]
  rw [m_frc0]
  simp only [ok_bind]
  rw [m_frh]
  simp only [ok_bind]
  rw [m_prod]
  simp only [ok_bind, pure_eq_ok]
  norm_num [sM, F.div_val, F.mul_val, F.add_val, F.neg_val, F.sub_val,
    F.pow_two, Prod.ext_iff]

theorem m_r1 :
    residual_func (-F.val (3/5), F.val 1) sM (F.val (-(1/26))) (F.val 1)
      = Except.ok (F.val 0, F.val 0) := by
  simp only [residual_func]
  rw [m_frc1]
  simp only [ok_bind]
  rw [m_frh]
  simp only [ok_bind]
  rw [m_prod]
  simp only [ok_bind, pure_eq_ok]
  norm_num [sM, F.div_val, F.mul_val, F.add_val, F.neg_val, F.sub_val,
    F.pow_two, Prod.ext_iff]

theorem m_rOK : residOK (F.val 0, F.val 0) := by
  unfold residOK
  norm_num [F.fabs, F.flt, abs]

theorem m_sd1 : msqrt (F.val 1) = Except.ok (F.val 1) := by
  rw [msqrt_val _ (by norm_num), Real.sqrt_one]

/-- Full evaluation of `findroot` at the C3/C1 input: both branch
candidates satisfy the residual tolerance, and the function returns
normally with branch 1 selected. -/
theorem m_findroot :
    findroot mWqc mWue = Except.ok
      ⟨-F.val (3/5), F.val 1 * F.val 1e-12,
       F.val (-(9/25)) * F.val 1 / -F.val (3/5) * F.val 1e-6,
       some 1, true, ""⟩ :=
  findroot_valid_b1 mWqc mWue (F.val 1) (F.val (9/25)) (F.val (3/5))
    (F.val 0, F.val 0) (F.val 0, F.val 0) (F.val (-(9/25))) (F.val 1)
    m_varcp m_rhosq m_sq m_raw
    (by rw [m_scale, m_wue]; exact m_r0)
    (by rw [m_scale, m_wue]; exact m_r1)
    m_rOK
    (by rw [m_scale]; exact m_frc1)
    m_sd1

/-- C3: at the `mWqc` Covariance Summary both CO2 branch candidates satisfy
the 1e-12 residual tolerance simultaneously (the discriminant is exactly
zero, so the two candidates coincide), yet `findroot` does NOT halt with an
assertion failure: the `assert not co2soln_id` guard always passes because
`co2soln_id` is `0` at that point and `not 0` is `True` in Python, so the
function silently selects branch 1 and returns a valid Root Solution. -/
theorem C3_both_branches_validate_no_halt :
    candVarCp (scaleWQC mWqc) (mWue * F.val 1e3) = Except.ok (F.val 1) ∧
    candRhoSq (scaleWQC mWqc) (mWue * F.val 1e3)
      = Except.ok (F.val (9/25)) ∧
    msqrt (F.val (9/25)) = Except.ok (F.val (3/5)) ∧
    (isvalid_root (-F.val (3/5)) (F.val 1)).1 = true ∧
    residual_func (-F.val (3/5), F.val 1) (scaleWQC mWqc) (mWue * F.val 1e3)
      (F.val 0) = Except.ok (F.val 0, F.val 0) ∧
    residual_func (-F.val (3/5), F.val 1) (scaleWQC mWqc) (mWue * F.val 1e3)
      (F.val 1) = Except.ok (F.val 0, F.val 0) ∧
    residOK (F.val 0, F.val 0) ∧
    findroot mWqc mWue = Except.ok
      ⟨-F.val (3/5), F.val 1 * F.val 1e-12,
       F.val (-(9/25)) * F.val 1 / -F.val (3/5) * F.val 1e-6,
       some 1, true, ""⟩ ∧
    findroot mWqc mWue ≠ Except.error Err.assertionError :=
  ⟨m_varcp, m_rhosq, m_sq, m_raw,
   by rw [m_scale, m_wue]; exact m_r0,
   by rw [m_scale, m_wue]; exact m_r1,
   m_rOK, m_findroot, by rw [m_findroot]; simp⟩

/-- C1: `findroot` marks the returned Root Solution valid iff the raw
closed-form candidate passes `_isvalid_root` (variance positive,
correlation strictly inside (-1, 0)) and at least one of the two CO2 branch
candidates has both residual components within the 1e-12 tolerance; when
valid, the returned branch identifier is a branch whose residuals
validated. -/
theorem C1_findroot_valid_iff (d : WQCData) (wue : F)
    (var_cp rho_sq sq : F) (r0 r1 : F × F) (r : RootSoln)
    (hv : candVarCp (scaleWQC d) (wue * F.val 1e3) = Except.ok var_cp)
    (hrho : candRhoSq (scaleWQC d) (wue * F.val 1e3) = Except.ok rho_sq)
    (hs : msqrt rho_sq = Except.ok sq)
    (h0 : residual_func (-sq, var_cp) (scaleWQC d) (wue * F.val 1e3)
      (F.val 0) = Except.ok r0)
    (h1 : residual_func (-sq, var_cp) (scaleWQC d) (wue * F.val 1e3)
      (F.val 1) = Except.ok r1)
    (hf : findroot d wue = Except.ok r) :
    (r.isvalid = true ↔
      ((isvalid_root (-sq) var_cp).1 = true ∧ (residOK r0 ∨ residOK r1))) ∧
    (r.isvalid = true →
      (r.co2soln_id = some 0 ∧ residOK r0) ∨
      (r.co2soln_id = some 1 ∧ residOK r1)) := by
  by_cases hraw : (isvalid_root (-sq) var_cp).1 = true
  · have hvp : var_cp.sqrtArgOK :=
      F.sqrtArgOK_of_not_fle_zero ((isvalid_root_true_iff _ _).1 hraw).1
    obtain ⟨sdcp, hsd⟩ := msqrt_ok hvp
    by_cases hb1 : residOK r1
    · obtain ⟨rat, hrat⟩ := flux_ratio_co2_ok var_cp (-sq) (scaleWQC d)
        (F.val 1)
      rw [findroot_valid_b1 d wue var_cp rho_sq sq r0 r1 rat sdcp
        hv hrho hs hraw h0 h1 hb1 hrat hsd] at hf
      injection hf with hf
      subst hf
      exact ⟨by simp [hraw, hb1], fun _ => Or.inr ⟨rfl, hb1⟩⟩
    · by_cases hb0 : residOK r0
      · obtain ⟨rat, hrat⟩ := flux_ratio_co2_ok var_cp (-sq) (scaleWQC d)
          (F.val 0)
        rw [findroot_valid_b0 d wue var_cp rho_sq sq r0 r1 rat sdcp
          hv hrho hs hraw h0 h1 hb0 hb1 hrat hsd] at hf
        injection hf with hf
        subst hf
        exact ⟨by simp [hraw, hb0], fun _ => Or.inl ⟨rfl, hb0⟩⟩
      · rw [findroot_valid_none d wue var_cp rho_sq sq r0 r1
          hv hrho hs hraw h0 h1 hb0 hb1] at hf
        injection hf with hf
        subst hf
        simp [hb0, hb1]
  · have hraw' : (isvalid_root (-sq) var_cp).1 = false :=
      Bool.not_eq_true _ ▸ hraw
    rw [findroot_invalid_raw d wue var_cp rho_sq sq hv hrho hs hraw'] at hf
    injection hf with hf
    subst hf
    simp [hraw']

/-- Witness for C1 at the `mWqc` input, where the root is valid and branch 1
validates. -/
theorem C1_findroot_valid_iff_witness :
    ((⟨-F.val (3/5), F.val 1 * F.val 1e-12,
        F.val (-(9/25)) * F.val 1 / -F.val (3/5) * F.val 1e-6,
        some 1, true, ""⟩ : RootSoln).isvalid = true ↔
      ((isvalid_root (-F.val (3/5)) (F.val 1)).1 = true ∧
        (residOK (F.val 0, F.val 0) ∨ residOK (F.val 0, F.val 0)))) ∧
    ((⟨-F.val (3/5), F.val 1 * F.val 1e-12,
        F.val (-(9/25)) * F.val 1 / -F.val (3/5) * F.val 1e-6,
        some 1, true, ""⟩ : RootSoln).isvalid = true →
      ((⟨-F.val (3/5), F.val 1 * F.val 1e-12,
          F.val (-(9/25)) * F.val 1 / -F.val (3/5) * F.val 1e-6,
          some 1, true, ""⟩ : RootSoln).co2soln_id = some 0 ∧
        residOK (F.val 0, F.val 0)) ∨
      ((⟨-F.val (3/5), F.val 1 * F.val 1e-12,
          F.val (-(9/25)) * F.val 1 / -F.val (3/5) * F.val 1e-6,
          some 1, true, ""⟩ : RootSoln).co2soln_id = some 1 ∧
        residOK (F.val 0, F.val 0))) :=
  C1_findroot_valid_iff mWqc mWue (F.val 1) (F.val (9/25)) (F.val (3/5))
    (F.val 0, F.val 0) (F.val 0, F.val 0) _
    m_varcp m_rhosq m_sq
    (by rw [m_scale, m_wue]; exact m_r0)
    (by rw [m_scale, m_wue]; exact m_r1)
    m_findroot

/-- A level attempt succeeds when its root is valid and its (possibly
adjusted) partition is valid — the `break` condition of the progressive
loop. -/
def attemptValid (r : FVSPResult) : Prop :=
  r.rootsoln.isvalid = true ∧ r.valid_partition = true

/-- Behavior of the progressive loop on a list of low-cut triples whose
attempts all evaluate without faults: it returns the attempt at the first
valid level (with its index), or the last attempt when no level is valid. -/
theorem progLoop_spec (wue wq_tot wc_tot : F) (adj : Bool) :
    ∀ (L : List (List ℝ × List ℝ × List ℝ)) (rs : List FVSPResult)
      (cnt : Nat),
      L.mapM (progAttempt wue wq_tot wc_tot adj) = Except.ok rs →
      L ≠ [] →
      ((∀ k (hk : k < rs.length), attemptValid (rs.get ⟨k, hk⟩) →
        (∀ j (hj : j < k), ¬ attemptValid (rs.get ⟨j, hj.trans hk⟩)) →
        progLoop wue wq_tot wc_tot adj L cnt
          = Except.ok (rs.get ⟨k, hk⟩, cnt + k)) ∧
      ((∀ r ∈ rs, ¬ attemptValid r) → ∃ last, rs.getLast? = some last ∧
        progLoop wue wq_tot wc_tot adj L cnt
          = Except.ok (last, cnt + (rs.length - 1)))) := by
  intro L
  induction L with
  | nil => intro rs cnt _ hne; exact absurd rfl hne
  | cons t rest ih =>
    intro rs cnt hres _
    rw [List.mapM_cons] at hres
    cases ha : progAttempt wue wq_tot wc_tot adj t with
    | error e =>
      rw [ha] at hres
      simp only [error_bind] at hres
      exact absurd hres (by simp)
    | ok r =>
    rw [ha] at hres
    simp only [ok_bind] at hres
    cases hrest : rest.mapM (progAttempt wue wq_tot wc_tot adj) with
    | error e =>
      rw [hrest] at hres
      simp only [error_bind] at hres
      exact absurd hres (by simp)
    | ok rs' =>
    rw [hrest] at hres
    simp only [ok_bind, pure_eq_ok, Except.ok.injEq] at hres
    subst hres
    cases rest with
    | nil =>
      simp only [List.mapM_nil, pure_eq_ok, Except.ok.injEq] at hrest
      subst hrest
      constructor
      · intro k hk hval _
        have hk0 : k = 0 := by
          simp only [List.length_cons, List.length_nil] at hk
          omega
        subst hk0
        show (do
          let fvsp ← progAttempt wue wq_tot wc_tot adj t
          pure (fvsp, cnt)) = Except.ok ((r :: []).get ⟨0, hk⟩, cnt + 0)
        rw [ha]
        simp
      · intro _
        refine ⟨r, rfl, ?_⟩
        show (do
          let fvsp ← progAttempt wue wq_tot wc_tot adj t
          pure (fvsp, cnt)) = Except.ok (r, cnt + (1 - 1))
        rw [ha]
        simp
    | cons t' rest' =>
      have hloop : progLoop wue wq_tot wc_tot adj (t :: t' :: rest') cnt
          = (do
            let fvsp ← progAttempt wue wq_tot wc_tot adj t
            if fvsp.rootsoln.isvalid = true ∧ fvsp.valid_partition = true then
              pure (fvsp, cnt)
            else
              progLoop wue wq_tot wc_tot adj (t' :: rest') (cnt + 1)) := rfl
      cases rs' with
      | nil =>
        rw [List.mapM_cons] at hrest
        cases ha' : progAttempt wue wq_tot wc_tot adj t' with
        | error e =>
          rw [ha'] at hrest
          simp only [error_bind] at hrest
          exact absurd hrest (by simp)
        | ok r' =>
          rw [ha'] at hrest
          simp only [ok_bind] at hrest
          cases hrest' : rest'.mapM (progAttempt wue wq_tot wc_tot adj) with
          | error e =>
            rw [hrest'] at hrest
            simp only [error_bind] at hrest
            exact absurd hrest (by simp)
          | ok l =>
            rw [hrest'] at hrest
            simp only [ok_bind, pure_eq_ok] at hrest
            exact absurd hrest (by simp)
      | cons r' rs'' =>
      have ihr := ih (r' :: rs'') (cnt + 1) hrest (by simp)
      constructor
      · intro k hk hval hfirst
        cases k with
        | zero =>
          have hval' : r.rootsoln.isvalid = true ∧ r.valid_partition = true :=
            hval
          rw [hloop, ha]
          simp only [ok_bind]
          rw [if_pos hval']
          simp
        | succ k' =>
          have hnr : ¬ attemptValid r := hfirst 0 (Nat.succ_pos k')
          have hnr' : ¬ (r.rootsoln.isvalid = true
              ∧ r.valid_partition = true) := hnr
          rw [hloop, ha]
          simp only [ok_bind]
          rw [if_neg hnr']
          have hk' : k' < (r' :: rs'').length := Nat.succ_lt_succ_iff.mp hk
          have hrun := ihr.1 k' hk'
            (by simpa using hval)
            (by
              intro j hj
              have := hfirst (j + 1) (Nat.succ_lt_succ hj)
              simpa using this)
          rw [show cnt + (k' + 1) = cnt + 1 + k' from by omega]
          exact hrun
      · intro hall
        have hnr : ¬ attemptValid r := hall r (List.mem_cons_self r _)
        have hnr' : ¬ (r.rootsoln.isvalid = true
            ∧ r.valid_partition = true) := hnr
        obtain ⟨last, hlast, hrun⟩ := ihr.2 (by
          intro x hx
          exact hall x (List.mem_cons_of_mem _ hx))
        refine ⟨last, ?_, ?_⟩
        · rw [List.getLast?_cons_cons]
          exact hlast
        · rw [hloop, ha]
          simp only [ok_bind]
          rw [if_neg hnr']
          rw [show cnt + ((r :: r' :: rs'').length - 1)
            = cnt + 1 + ((r' :: rs'').length - 1) from by
              simp only [List.length_cons]
              omega]
          exact hrun

/-- C2: the progressive orchestrator tries decomposition levels in
increasing order and returns the attempt of the first level whose partition
is valid (valid after adjustment when adjustment is requested), never
running a later level; when no level validates, it returns the last
attempt's summary and root with the validity flag forced false, the last
attempt's diagnostic message (the root solver's message when the root was
invalid), and every Mass Fluxes field reset to the all-nan default. -/
theorem C2_progressive_first_valid_or_exhaust (w q c : List ℝ) (wue : F)
    (adj : Bool) (rs : List FVSPResult)
    (hne : progressive_lowcut w q c ≠ [])
    (hres : (progressive_lowcut w q c).mapM
        (progAttempt wue (npcov w q) (npcov w c) adj) = Except.ok rs) :
    (∀ k (hk : k < rs.length), attemptValid (rs.get ⟨k, hk⟩) →
      (∀ j (hj : j < k), ¬ attemptValid (rs.get ⟨j, hj.trans hk⟩)) →
      fvspart_progressive w q c wue adj = Except.ok
        { rs.get ⟨k, hk⟩ with
            wave_lvl := some (Nat.log2 w.length - k, Nat.log2 w.length) }) ∧
    ((∀ r ∈ rs, ¬ attemptValid r) → ∃ last, rs.getLast? = some last ∧
      fvspart_progressive w q c wue adj = Except.ok
        { wqc_data := last.wqc_data, rootsoln := last.rootsoln,
          fluxes := MassFluxes.default, valid_partition := false,
          mssg := if last.rootsoln.isvalid = true then last.mssg
                  else last.rootsoln.mssg,
          wave_lvl := some (Nat.log2 w.length - (rs.length - 1),
                            Nat.log2 w.length) }) := by
  have hspec := progLoop_spec wue (npcov w q) (npcov w c) adj
    (progressive_lowcut w q c) rs 0 hres hne
  constructor
  · intro k hk hval hfirst
    have hval1 : (rs.get ⟨k, hk⟩).rootsoln.isvalid = true := hval.1
    have hval2 : (rs.get ⟨k, hk⟩).valid_partition = true := hval.2
    have hrun := hspec.1 k hk hval hfirst
    simp only [fvspart_progressive]
    rw [hrun]
    simp only [ok_bind, pure_eq_ok]
    simp only [List.get_eq_getElem] at hval1 hval2 ⊢
    simp [hval1, hval2]
  · intro hall
    obtain ⟨last, hlast, hrun⟩ := hspec.2 hall
    have hmem : last ∈ rs := by
      obtain ⟨h9, h10⟩ := List.mem_getLast?_eq_getLast
        (show last ∈ rs.getLast? from by rw [hlast]; rfl)
      rw [h10]
      exact List.getLast_mem h9
    refine ⟨last, hlast, ?_⟩
    simp only [fvspart_progressive]
    rw [hrun]
    simp only [ok_bind, pure_eq_ok]
    cases hiv : last.rootsoln.isvalid with
    | false => simp [hiv]
    | true =>
      have hvp : last.valid_partition = false := by
        have h2 := hall last hmem
        unfold attemptValid at h2
        rw [hiv] at h2
        simpa using h2
      simp [hiv, hvp]

/-!
C2 witness input: the length-1 series [1],[1],[1].  Its single-sample
covariances are 0/0 = nan, the root solver rejects the nan candidate root,
and the orchestrator exhausts its single level.
-/

def nanWqcD : WQCData := ⟨F.nan, F.nan, F.nan, F.nan, F.nan⟩

def nanRoot : RootSoln :=
  ⟨F.nan, F.nan, F.nan, none, false, "corr_cp_cr <-1 OR >0; "⟩

def nanResult : FVSPResult :=
  ⟨nanWqcD, nanRoot, MassFluxes.default, false, "corr_cp_cr <-1 OR >0; ",
   none⟩

theorem nan_scale : scaleWQC nanWqcD = nanWqcD := by
  simp [scaleWQC, nanWqcD]

theorem nan_varcp (wue : F) : candVarCp nanWqcD wue = Except.ok F.nan := by
  unfold candVarCp
  simp [nanWqcD]

theorem nan_rhosq (wue : F) : candRhoSq nanWqcD wue = Except.ok F.nan := by
  unfold candRhoSq
  simp [nanWqcD]

theorem nan_raw : (isvalid_root (-F.nan) F.nan).1 = false := by
  simp [isvalid_root]

theorem nan_mssg : (isvalid_root F.nan F.nan).2
    = "corr_cp_cr <-1 OR >0; " := by
  simp [isvalid_root]

theorem findroot_nan : findroot nanWqcD (F.val (-1)) = Except.ok nanRoot := by
  have h := findroot_invalid_raw nanWqcD (F.val (-1)) F.nan F.nan F.nan
    (by rw [nan_scale]; exact nan_varcp _)
    (by rw [nan_scale]; exact nan_rhosq _)
    msqrt_nan nan_raw
  rw [h]
  simp [nanRoot, nan_mssg]

theorem cov_single : npcov [(0:ℝ)] [(0:ℝ)] = F.nan := by
  unfold npcov
  rw [show F.val (([(0:ℝ)].length : ℝ) - 1) = F.val 0 from by norm_num]
  exact F.div_val_zero _

theorem series_nan :
    fvspart_series [(0:ℝ)] [(0:ℝ)] [(0:ℝ)] (F.val (-1)) false
      = Except.ok nanResult := by
  unfold fvspart_series
  rw [cov_single]
  simp only [F.mul_nan, msqrt_nan, ok_bind, F.nan_div]
  show fvspart_interval nanWqcD (F.val (-1)) false = Except.ok nanResult
  unfold fvspart_interval
  rw [findroot_nan]
  simp only [ok_bind]
  rw [if_pos (show nanRoot.isvalid = false from rfl)]
  rfl

theorem attempt_nan (wq_tot wc_tot : F) :
    progAttempt (F.val (-1)) wq_tot wc_tot true ([(0:ℝ)], [(0:ℝ)], [(0:ℝ)])
      = Except.ok nanResult := by
  unfold progAttempt
  rw [series_nan]
  simp only [ok_bind]
  rw [if_neg (by simp [nanResult, nanRoot])]
  rfl

theorem log2_one : Nat.log2 1 = 0 := by simp [Nat.log2]

theorem lowcut_single :
    progressive_lowcut [(1:ℝ)] [(1:ℝ)] [(1:ℝ)]
      = [([(0:ℝ)], [(0:ℝ)], [(0:ℝ)])] := by
  unfold progressive_lowcut progressive_lowcut_series lowcutLevel blockAvg
  simp [listMean, listSum, log2_one]
  rw [show List.range 1 = [0] from by decide]
  simp
  rw [show (List.take 1 (List.take 1 [(1:ℝ)])) = [(1:ℝ)] from rfl]
  norm_num

theorem mapM_single :
    ([([(0:ℝ)], [(0:ℝ)], [(0:ℝ)])] : List (List ℝ × List ℝ × List ℝ)).mapM
        (progAttempt (F.val (-1)) (npcov [(1:ℝ)] [(1:ℝ)])
          (npcov [(1:ℝ)] [(1:ℝ)]) true)
      = Except.ok [nanResult] := by
  rw [List.mapM_cons, attempt_nan]
  rfl

/-- Witness for C2 at the length-1 series [1],[1],[1] with `wue = -1` and
adjustment requested: the single level's attempt is invalid, so the
exhaustion branch applies. -/
theorem C2_progressive_witness :
    (∀ k (hk : k < [nanResult].length),
      attemptValid ([nanResult].get ⟨k, hk⟩) →
      (∀ j (hj : j < k), ¬ attemptValid ([nanResult].get ⟨j, hj.trans hk⟩)) →
      fvspart_progressive [(1:ℝ)] [(1:ℝ)] [(1:ℝ)] (F.val (-1)) true
        = Except.ok
        { [nanResult].get ⟨k, hk⟩ with
            wave_lvl := some (Nat.log2 [(1:ℝ)].length - k,
                              Nat.log2 [(1:ℝ)].length) }) ∧
    ((∀ r ∈ [nanResult], ¬ attemptValid r) →
      ∃ last, [nanResult].getLast? = some last ∧
      fvspart_progressive [(1:ℝ)] [(1:ℝ)] [(1:ℝ)] (F.val (-1)) true
        = Except.ok
        { wqc_data := last.wqc_data, rootsoln := last.rootsoln,
          fluxes := MassFluxes.default, valid_partition := false,
          mssg := if last.rootsoln.isvalid = true then last.mssg
                  else last.rootsoln.mssg,
          wave_lvl := some (Nat.log2 [(1:ℝ)].length
                              - ([nanResult].length - 1),
                            Nat.log2 [(1:ℝ)].length) }) :=
  C2_progressive_first_valid_or_exhaust [(1:ℝ)] [(1:ℝ)] [(1:ℝ)]
    (F.val (-1)) true [nanResult]
    (by rw [lowcut_single]; simp)
    (by rw [lowcut_single]; exact mapM_single)
